import Mathlib

/-!
# Argus: motion detection runner, handlers and detector

A shallow embedding of the Go package `argus` (`runner.go`, `handler.go`,
`detector.go`, `mail.go`, `config.go`) together with the properties of its
debounce gate, its handler dispatch, its handler registry and its detector.

Conventions of the embedding.

* `time.Time` is an instant counted in nanoseconds from the zero `time.Time` (`Int`),
  `time.Duration` a signed count of nanoseconds (`Int`); `After` is `>`, `Add` is `+`.
* `float64` areas are rationals: the detector only compares them, and the order of
  finite floats is the order of the rationals they denote.
* The counter `eventCount` is a Go `int` of 64 bits: an `Int` between `minInt` and
  `maxInt`, whose increment wraps around (`wrapInt`).
* Calls into the operating system, the standard library, OpenCV and SMTP are not code
  of the package.  They are the fields of `Lib` (for the handlers) and of `Capture`
  (for the detector); `memLib` is one concrete in-memory instance.
* A method that mutates its receiver returns the new receiver; a Go result pair
  `(value, error)` is a pair of options.
-/

namespace Argus

/-! ## Data model -/

/-- An instant of `time.Time`, in nanoseconds. -/
abbrev Time := Int

/-- A `time.Duration`, in nanoseconds (signed, as in Go). -/
abbrev Duration := Int

/-- The largest value of a Go `int` (64 bits). -/
def maxInt : Int := 9223372036854775807

/-- The smallest value of a Go `int` (64 bits). -/
def minInt : Int := -9223372036854775808

/-- The value a Go `int` takes for a mathematical result: two's complement wrap-around
into the range from `minInt` to `maxInt`. -/
def wrapInt (x : Int) : Int :=
  (x + 9223372036854775808) % 18446744073709551616 - 9223372036854775808

/-- The pixels of an `image.Image`. -/
abbrev Image := List Nat

/-- The method `Time.After`. -/
def After (t u : Time) : Bool := decide (u < t)

/-- The method `Time.Add`. -/
def Add (t : Time) (d : Duration) : Time := t + d

/-- Go `error` values: the file-does-not-exist error that `os.IsNotExist` recognises,
and every other error, carried as its message. -/
inductive Error where
  | notExist (path : String)
  | msg (text : String)
  deriving DecidableEq, Repr

/-- The method `Error()` of an error (what `%v` prints). -/
def Error.text : Error → String
  | .notExist path => "stat " ++ path ++ ": no such file or directory"
  | .msg s => s

/-- The function `os.IsNotExist`; it is false of the nil error. -/
def IsNotExist : Option Error → Bool
  | some (.notExist _) => true
  | _ => false

/-- The struct `MailConfig` of `config.go`. -/
structure MailConfig where
  From : String
  To : String
  ServerHost : String
  ServerPort : Int
  ServerUser : String
  ServerPassword : String
  deriving DecidableEq, Repr

/-- The struct `Configuration` of `config.go`. -/
structure Configuration where
  Fps : Nat
  DeviceID : String
  MinInterval : Duration
  MinArea : ℚ
  ShowVideo : Bool
  Handlers : List String
  DataDir : String
  MailConfig : Argus.MailConfig
  deriving DecidableEq

/-- The struct `MotionEvent` of `detector.go`. -/
structure MotionEvent where
  Frame : Image
  Timestamp : Time
  deriving DecidableEq, Repr

/-- The struct `mailMessage` of `mail.go`. -/
structure mailMessage where
  from_ : String
  to_ : List String
  subject : String
  body : String
  attachment : String
  deriving DecidableEq, Repr

/-- The constant `filePattern` of `handler.go`. -/
def filePattern : String := "2006-01-02-15-04-05"

/-- The constant `fileExt` of `handler.go`. -/
def fileExt : String := ".png"

/-- The constant `dateFormat` of `handler.go`. -/
def dateFormat : String := "2006-01-02 15:04:05"

/-- The library and operating-system calls made by the handlers, over a type `W` of
states of the outside world (file system, mail server, process log). -/
structure Lib (W : Type) where
  /-- The method `time.Time.Format`. -/
  Format : Time → String → String
  /-- The function `filepath.Join` of two elements. -/
  Join : String → String → String
  /-- The error result of `os.Stat`. -/
  Stat : String → W → Option Error
  /-- The function `os.MkdirAll` with `os.ModePerm`. -/
  MkdirAll : String → W → Option Error × W
  /-- The function `os.Create`; the file it opens is named by its path. -/
  Create : String → W → Option Error × W
  /-- The function `png.Encode` into the file opened at a path. -/
  Encode : String → Image → W → Option Error × W
  /-- The method `Close` of the file opened at a path. -/
  Close : String → W → W
  /-- The error result of `Email.AttachFile`. -/
  AttachFile : String → W → Option Error
  /-- The method `Email.Send`: server address, then user, password and host of the
  plain authentication, then the message. -/
  Send : String → String → String → String → mailMessage → W → Option Error × W
  /-- The function `log.Printf`, given the formatted line. -/
  Printf : String → W → W

variable {W : Type}

/-! ## mail.go -/

/-- The interface `mailSender`: the sender of `mail.go`, or any other implementation
(such as the recording sender of the tests), given by its `send` method. -/
inductive mailSender (W : Type) where
  | defaultMailSender (serverHost : String) (serverPort : Int)
      (serverUser : String) (serverPassword : String)
  | other (send : mailMessage → W → Option Error × W)

/-- The function `newMailSender`. -/
def newMailSender (config : Configuration) : mailSender W :=
  .defaultMailSender config.MailConfig.ServerHost config.MailConfig.ServerPort
    config.MailConfig.ServerUser config.MailConfig.ServerPassword

/-- The method `send`; for `defaultMailSender` the body of `mail.go`. -/
def mailSender.send (lib : Lib W) : mailSender W → mailMessage → W → Option Error × W
  | .defaultMailSender serverHost serverPort serverUser serverPassword, m, w =>
    match lib.AttachFile m.attachment w with
    | some err => (some err, w)
    | none =>
      let serverHostPort := serverHost ++ ":" ++ toString serverPort
      lib.Send serverHostPort serverUser serverPassword serverHost m w
  | .other send, m, w => send m w

/-! ## handler.go -/

/-- The interface `MotionHandler`: the three handlers of `handler.go`, or any other
implementation, given by its `Handle` method. -/
inductive MotionHandler (W : Type) where
  | consoleHandler
  | archiveHandler (dataDir : String)
  | mailHandler (sender : mailSender W) (from_ : String) (to_ : List String)
      (dataDir : String)
  | other (handle : MotionEvent → W → Option Error × W)

/-- The function `newMotionHandler`: the handler and the error it returns. -/
def newMotionHandler (handler : String) (config : Configuration) :
    Option (MotionHandler W) × Option Error :=
  if handler = "console" then (some .consoleHandler, none)
  else if handler = "archive" then (some (.archiveHandler config.DataDir), none)
  else if handler = "mail" then
    (some (.mailHandler (newMailSender config) config.MailConfig.From
      [config.MailConfig.To] config.DataDir), none)
  else (none, some (.msg ("unknown handler: " ++ handler)))

/-- The function `pathForImage`. -/
def pathForImage (lib : Lib W) (event : MotionEvent) (dataDir : String) : String :=
  let filename := lib.Format event.Timestamp filePattern ++ fileExt
  lib.Join dataDir filename

/-- The method `consoleHandler.Handle`. -/
def consoleHandlerHandle (lib : Lib W) (event : MotionEvent) (w : W) : Option Error × W :=
  (none, lib.Printf ("Motion detected at " ++ lib.Format event.Timestamp dateFormat ++ "\n") w)

/-- The method `archiveHandler.Handle`; the deferred `file.Close()` runs on every
return that follows a successful `os.Create`. -/
def archiveHandlerHandle (lib : Lib W) (dataDir : String) (event : MotionEvent) (w : W) :
    Option Error × W :=
  let made : Option Error × W :=
    if IsNotExist (lib.Stat dataDir w) then lib.MkdirAll dataDir w else (none, w)
  match made with
  | (some err, w1) => (some err, w1)
  | (none, w1) =>
    let path := pathForImage lib event dataDir
    match lib.Create path w1 with
    | (some err, w2) => (some err, w2)
    | (none, w2) =>
      match lib.Encode path event.Frame w2 with
      | (some err, w3) => (some err, lib.Close path w3)
      | (none, w3) =>
        (none, lib.Close path (lib.Printf ("Motion capture saved to " ++ path ++ "\n") w3))

/-- The message that `mailHandler.Handle` builds for an event. -/
def mailHandlerMessage (lib : Lib W) (from_ : String) (to_ : List String) (dataDir : String)
    (event : MotionEvent) : mailMessage :=
  { from_ := from_
    to_ := to_
    subject := "Motion detected"
    body := "Motion detected at " ++ lib.Format event.Timestamp dateFormat
    attachment := pathForImage lib event dataDir }

/-- The method `mailHandler.Handle`. -/
def mailHandlerHandle (lib : Lib W) (sender : mailSender W) (from_ : String)
    (to_ : List String) (dataDir : String) (event : MotionEvent) (w : W) : Option Error × W :=
  let path := pathForImage lib event dataDir
  let err := lib.Stat path w
  if IsNotExist err then (err, w)
  else
    let sent := sender.send lib (mailHandlerMessage lib from_ to_ dataDir event) w
    (sent.1, lib.Printf "Email sent with motion capture\n" sent.2)

/-- The interface method `MotionHandler.Handle`. -/
def MotionHandler.Handle (lib : Lib W) : MotionHandler W → MotionEvent → W → Option Error × W
  | .consoleHandler => consoleHandlerHandle lib
  | .archiveHandler dataDir => archiveHandlerHandle lib dataDir
  | .mailHandler sender from_ to_ dataDir => mailHandlerHandle lib sender from_ to_ dataDir
  | .other handle => handle

/-! ## detector.go -/

/-- What the capture device and OpenCV hand to one call of `DetectMotion`: whether
`webcam.Read` succeeded, whether the frame read is empty, the `ContourArea` of each
contour found, in order, the result of `img.ToImage()` and the value of `time.Now()`. -/
structure Capture where
  readOk : Bool
  empty : Bool
  areas : List ℚ
  toImage : Except Error Image
  now : Time

/-- The method `openCVMotionDetector.DetectMotion` on one capture.  Drawing on the frame
and the preview window (`showVideo`) do not bear on the result. -/
def DetectMotion (c : Capture) (_showVideo : Bool) (minimumArea : ℚ) :
    Option MotionEvent × Option Error :=
  if !c.readOk then (none, some (.msg "video capture device is closed"))
  else if c.empty then (none, none)
  else
    let motion := c.areas.foldl (fun motion area => if area < minimumArea then motion else true) false
    if motion then
      match c.toImage with
      | .error _ => (none, none)
      | .ok frame => (some { Frame := frame, Timestamp := c.now }, none)
    else (none, none)

/-- The interface `MotionDetector`, as it answers one call of each method. -/
structure MotionDetector where
  OpenDevice : String → Option Error
  DetectMotion : Bool → ℚ → Option MotionEvent × Option Error

/-- The OpenCV detector on one capture; `opened` is the error of `OpenVideoCapture`. -/
def openCVMotionDetector (opened : Option Error) (c : Capture) : MotionDetector :=
  { OpenDevice := fun _ => opened, DetectMotion := Argus.DetectMotion c }

/-- A detector that reports the given event, like `mockMotionDetector` of the tests. -/
def mockMotionDetector (evt : MotionEvent) : MotionDetector :=
  { OpenDevice := fun _ => none, DetectMotion := fun _ _ => (some evt, none) }

/-! ## runner.go -/

/-- The struct `Runner`; its detector is passed to each method call, as it stands
at that call. -/
structure Runner (W : Type) where
  config : Configuration
  handlers : List (MotionHandler W)
  threshold : Time
  eventCount : Int

/-- The function `NewRunner`: the zero value of every field but the configuration. -/
def NewRunner (config : Configuration) : Runner W :=
  { config := config, handlers := [], threshold := 0, eventCount := 0 }

/-- The loop of `Runner.Init` over the configured names, from the handlers
registered so far: the handlers registered when it stops, and its error.
(`newMotionHandler` never returns neither a handler nor an error.) -/
def registerHandlers (config : Configuration) :
    List String → List (MotionHandler W) → List (MotionHandler W) × Option Error
  | [], hs => (hs, none)
  | name :: names, hs =>
    match newMotionHandler name config with
    | (_, some err) => (hs, some err)
    | (some h, none) => registerHandlers config names (hs ++ [h])
    | (none, none) => registerHandlers config names hs

/-- The method `Runner.Init`; `now` is the value of `time.Now()`.  The device
identifier is the field `DeviceID` of `config.go` (`runner.go` spells it `DeviceId`);
the line logged for each handler added is left out. -/
def Init (r : Runner W) (d : MotionDetector) (now : Time) : Runner W × Option Error :=
  match d.OpenDevice r.config.DeviceID with
  | some err => (r, some err)
  | none =>
    match registerHandlers r.config r.config.Handlers r.handlers with
    | (hs, some err) => ({ r with handlers := hs }, some err)
    | (hs, none) => ({ r with handlers := hs, threshold := now }, none)

/-- The loop over the handlers inside the goroutine of `Runner.Run`: the error each
call of `Handle` returned, in order, and the world afterwards. -/
def handleEach (lib : Lib W) : List (MotionHandler W) → MotionEvent → W → List (Option Error) × W
  | [], _, w => ([], w)
  | h :: hs, evt, w =>
    let called := h.Handle lib evt w
    let w1 := match called.1 with
      | some err => lib.Printf ("Handler error: " ++ err.text ++ "\n") called.2
      | none => called.2
    let rest := handleEach lib hs evt w1
    (called.1 :: rest.1, rest.2)

/-- The world in which the handler after `h` is called: `h` has run, and its error, if
any, has been logged. -/
def afterHandler (lib : Lib W) (h : MotionHandler W) (evt : MotionEvent) (w : W) : W :=
  match (h.Handle lib evt w).1 with
  | some err => lib.Printf ("Handler error: " ++ err.text ++ "\n") (h.Handle lib evt w).2
  | none => (h.Handle lib evt w).2

/-- The goroutine spawned by `Runner.Run` for an admitted event, run on the state the
runner has when it executes. -/
def goroutine (lib : Lib W) (r : Runner W) (evt : MotionEvent) (w : W) : List (Option Error) × W :=
  let done := handleEach lib r.handlers evt w
  (done.1, lib.Printf (toString r.eventCount ++ " motion events handled\n") done.2)

/-- What one call of `Runner.Run` yields: the runner afterwards, the error returned, and
the event for which a goroutine was spawned, if any. -/
structure RunResult (W : Type) where
  runner : Runner W
  err : Option Error
  spawned : Option MotionEvent

/-- The method `Runner.Run`. -/
def Run (r : Runner W) (d : MotionDetector) : RunResult W :=
  match d.DetectMotion r.config.ShowVideo r.config.MinArea with
  | (_, some err) => { runner := r, err := some err, spawned := none }
  | (none, none) => { runner := r, err := none, spawned := none }
  | (some evt, none) =>
    if After evt.Timestamp r.threshold then
      { runner := { r with
          eventCount := wrapInt (r.eventCount + 1)
          threshold := Add evt.Timestamp r.config.MinInterval }
        err := none
        spawned := some evt }
    else { runner := r, err := none, spawned := none }

/-- One call of `Runner.Run` together with the goroutine it spawns, if any, run to its
end on the runner as `Run` left it: the errors the handlers returned, in order, and the
world afterwards.  When `Run` spawns no goroutine no handler is called and the world is
left as it was. -/
def runAndDispatch (lib : Lib W) (r : Runner W) (d : MotionDetector) (w : W) :
    List (Option Error) × W :=
  match (Run r d).spawned with
  | some evt => goroutine lib (Run r d).runner evt w
  | none => ([], w)

/-- Successive calls of `Run`, one per detector answer: the runner afterwards and the
events for which a goroutine was spawned, in order. -/
def runs : Runner W → List MotionDetector → Runner W × List MotionEvent
  | r, [] => (r, [])
  | r, d :: ds =>
    let res := Run r d
    let rest := runs res.runner ds
    (rest.1, res.spawned.toList ++ rest.2)

/-- The loop over the handlers inside the goroutine of `Runner.Run` when a call of
`Handle` may never return: `none` stands for a handler whose call hangs.  The loop calls
the handlers one after the other, so it goes no further than the first call that does not
return.  It yields the number of handlers whose `Handle` was called, the errors of the
calls that returned, in order, and the world they left. -/
def handleEachStarted (lib : Lib W) :
    List (Option (MotionHandler W)) → MotionEvent → W → Nat × List (Option Error) × W
  | [], _, w => (0, [], w)
  | none :: _, _, w => (1, [], w)
  | some h :: hs, evt, w =>
    let rest := handleEachStarted lib hs evt (afterHandler lib h evt w)
    (rest.1 + 1, (h.Handle lib evt w).1 :: rest.2.1, rest.2.2)

/-! ## The file system as the handlers see it -/

/-- A view of the file system inside the states of the world.  The calls `os.Stat`,
`os.MkdirAll`, `os.Create`, `png.Encode` and `Close` read and change nothing but the view;
logging a line and sending a mail leave the view as it is. -/
structure FileView (lib : Lib W) {F : Type} (view : W → F) : Prop where
  Stat : ∀ path w1 w2, view w1 = view w2 → lib.Stat path w1 = lib.Stat path w2
  MkdirAll : ∀ path w1 w2, view w1 = view w2 →
    (lib.MkdirAll path w1).1 = (lib.MkdirAll path w2).1 ∧
    view (lib.MkdirAll path w1).2 = view (lib.MkdirAll path w2).2
  Create : ∀ path w1 w2, view w1 = view w2 →
    (lib.Create path w1).1 = (lib.Create path w2).1 ∧
    view (lib.Create path w1).2 = view (lib.Create path w2).2
  Encode : ∀ path img w1 w2, view w1 = view w2 →
    (lib.Encode path img w1).1 = (lib.Encode path img w2).1 ∧
    view (lib.Encode path img w1).2 = view (lib.Encode path img w2).2
  Close : ∀ path w1 w2, view w1 = view w2 → view (lib.Close path w1) = view (lib.Close path w2)
  Printf : ∀ line w, view (lib.Printf line w) = view w
  Send : ∀ addr user password host msg w,
    view (lib.Send addr user password host msg w).2 = view w

/-- A mail sender that leaves the view of the file system as it is: the sender of
`mail.go` over a library with that view, or another sender whose `send` does so. -/
def mailSender.keepsView {F : Type} (view : W → F) : mailSender W → Prop
  | .defaultMailSender _ _ _ _ => True
  | .other send => ∀ msg w, view (send msg w).2 = view w

/-- A handler that leaves the view of the file system as it is: the console handler, the
mail handler with such a sender, or another handler whose `Handle` does so.  The archive
handler is not one. -/
def MotionHandler.keepsView {F : Type} (view : W → F) : MotionHandler W → Prop
  | .consoleHandler => True
  | .archiveHandler _ => False
  | .mailHandler sender _ _ _ => sender.keepsView view
  | .other handle => ∀ evt w, view (handle evt w).2 = view w

/-! ## Greedy leading-edge selection, as the specification words it -/

/-- The timestamps selected after `prev` was admitted: a timestamp is admitted exactly
when it is later than `prev + I`, and then becomes the most recently admitted one. -/
def greedyFrom (I : Duration) (prev : Time) : List Time → List Time
  | [] => []
  | t :: ts => if prev + I < t then t :: greedyFrom I t ts else greedyFrom I prev ts

/-- Greedy leading-edge selection: the first timestamp is admitted, each later one
exactly when it is later than the most recently admitted one plus `I`. -/
def greedySelection (I : Duration) : List Time → List Time
  | [] => []
  | t1 :: ts => t1 :: greedyFrom I t1 ts

/-! ## An in-memory instance of the library -/

/-- The state of an in-memory world: the directories and the files (with their pixels) of
the file system, the mails delivered (server address, message, pixels attached), the
lines logged, and the calls recorded by recording handlers. -/
structure MemWorld where
  dirs : List String
  files : List (String × Image)
  sent : List (String × mailMessage × Image)
  log : List String
  calls : List (String × MotionEvent)
  deriving DecidableEq, Repr

/-- The empty world: no directory, no file, nothing sent, logged or recorded. -/
def MemWorld.empty : MemWorld :=
  { dirs := [], files := [], sent := [], log := [], calls := [] }

/-- The pixels of the file at a path, if there is one. -/
def MemWorld.file (w : MemWorld) (path : String) : Option Image :=
  (w.files.find? (fun f => f.1 == path)).map (·.2)

/-- The world in which the file at a path holds the given pixels. -/
def MemWorld.write (w : MemWorld) (path : String) (img : Image) : MemWorld :=
  { w with files := (path, img) :: w.files.filter (fun f => f.1 != path) }

/-- Two decimal digits. -/
def pad2 (n : Nat) : String :=
  String.mk [Char.ofNat (48 + n / 10 % 10), Char.ofNat (48 + n % 10)]

/-- Four decimal digits. -/
def pad4 (n : Nat) : String := pad2 (n / 100) ++ pad2 (n % 100)

/-- Year, month and day of the day that lies `days` days after 1 January of year 1. -/
def civil (days : Int) : Int × Int × Int :=
  let z := days + 306
  let era := z / 146097
  let doe := z % 146097
  let yoe := (doe - doe / 1460 + doe / 36524 - doe / 146096) / 365
  let doy := doe - (365 * yoe + yoe / 4 - yoe / 100)
  let mp := (5 * doy + 2) / 153
  let d := doy - (153 * mp + 2) / 5 + 1
  let m := if mp < 10 then mp + 3 else mp - 9
  let y := yoe + era * 400 + (if m ≤ 2 then 1 else 0)
  (y, m, d)

/-- The method `Format` in UTC, for the two layouts of `handler.go`; another layout is
returned as it is. -/
def formatUTC (t : Time) (layout : String) : String :=
  let secs := t / 1000000000
  let ymd := civil (secs / 86400)
  let sod := secs % 86400
  let date := pad4 ymd.1.toNat ++ "-" ++ pad2 ymd.2.1.toNat ++ "-" ++ pad2 ymd.2.2.toNat
  let hh := pad2 (sod / 3600).toNat
  let mm := pad2 (sod % 3600 / 60).toNat
  let ss := pad2 (sod % 60).toNat
  if layout = filePattern then date ++ "-" ++ hh ++ "-" ++ mm ++ "-" ++ ss
  else if layout = dateFormat then date ++ " " ++ hh ++ ":" ++ mm ++ ":" ++ ss
  else layout

/-- The in-memory library.  `Stat` finds directories and files; `MkdirAll` fails on a
file; `Create` fails on a directory and otherwise leaves an empty file; `Encode` writes
the pixels; `AttachFile` needs the file; `Send` delivers the message with the pixels of
its attachment; `Printf` appends to the log. -/
def memLib : Lib MemWorld :=
  { Format := formatUTC
    Join := fun dir name => if dir = "" then name else dir ++ "/" ++ name
    Stat := fun path w =>
      if path ∈ w.dirs ∨ (w.file path).isSome then none else some (.notExist path)
    MkdirAll := fun path w =>
      if (w.file path).isSome then (some (.msg ("mkdir " ++ path ++ ": not a directory")), w)
      else (none, { w with dirs := if path ∈ w.dirs then w.dirs else w.dirs ++ [path] })
    Create := fun path w =>
      if path ∈ w.dirs then (some (.msg ("open " ++ path ++ ": is a directory")), w)
      else (none, w.write path [])
    Encode := fun path img w => (none, w.write path img)
    Close := fun _ w => w
    AttachFile := fun path w =>
      if (w.file path).isSome then none else some (.notExist path)
    Send := fun addr _ _ _ m w =>
      (none, { w with sent := w.sent ++ [(addr, m, (w.file m.attachment).getD [])] })
    Printf := fun line w => { w with log := w.log ++ [line] } }

/-- The view of the file system in the in-memory world: its directories and files. -/
def memView (w : MemWorld) : List String × List (String × Image) := (w.dirs, w.files)

/-- The in-memory library on a data directory that cannot be written to: `os.Create`
fails with a permission error. -/
def deniedLib : Lib MemWorld :=
  { memLib with
    Create := fun path w => (some (.msg ("open " ++ path ++ ": permission denied")), w) }

/-- A handler that records its call under a name and returns a fixed result, like the
`recorder` of the tests. -/
def recordingHandler (spec : String × Option Error) : MotionHandler MemWorld :=
  .other (fun evt w => (spec.2, { w with calls := w.calls ++ [(spec.1, evt)] }))

/-! ## Sample values -/

/-- One second, in nanoseconds. -/
def second : Duration := 1000000000

/-- The mail settings of `newMockConfiguration` in the tests. -/
def mockMailConfig : MailConfig :=
  { From := "user@example.net", To := "someone@example.net", ServerHost := "smtp.example.net",
    ServerPort := 465, ServerUser := "user@example.net", ServerPassword := "secret" }

/-- A configuration like `newMockConfiguration` of the tests, with the given minimal
interval, handler names and data directory. -/
def mockConfiguration (minInterval : Duration) (handlers : List String) (dataDir : String) :
    Configuration :=
  { Fps := 0, DeviceID := "0", MinInterval := minInterval, MinArea := 10000, ShowVideo := false,
    Handlers := handlers, DataDir := dataDir, MailConfig := mockMailConfig }

/-- A runner in mid-run: threshold 10, three events handled, `MinInterval` 5. -/
def sampleRunner : Runner MemWorld :=
  { config := mockConfiguration 5 [] "data", handlers := [], threshold := 10, eventCount := 3 }

/-- A freshly initialised runner with threshold `-1` and the given `MinInterval`. -/
def freshRunner (minInterval : Duration) : Runner MemWorld :=
  { config := mockConfiguration minInterval [] "data", handlers := [], threshold := -1,
    eventCount := 0 }

/-- A runner with a negative `MinInterval`: threshold 10, `MinInterval` -5. -/
def negativeIntervalRunner : Runner MemWorld :=
  { config := mockConfiguration (-5) [] "data", handlers := [], threshold := 10, eventCount := 0 }

/-- An event like `newTestMotionEvent` of the tests, at instant 0. -/
def testMotionEvent : MotionEvent := { Frame := [0, 0, 0, 0], Timestamp := 0 }

/-- Three recording handlers `A`, `B`, `C`, of which `B` fails. -/
def handlersABC : List (MotionHandler MemWorld) :=
  [recordingHandler ("A", none), recordingHandler ("B", some (.msg "B failed")),
    recordingHandler ("C", none)]

/-- A capture whose read succeeds with an empty frame. -/
def emptyFrameCapture : Capture :=
  { readOk := true, empty := true, areas := [], toImage := .ok [], now := 20 }

/-- A capture whose read fails. -/
def failedReadCapture : Capture :=
  { readOk := false, empty := false, areas := [], toImage := .ok [], now := 20 }

/-- A capture of a frame with the given contour areas, at instant 20. -/
def frameCapture (areas : List ℚ) : Capture :=
  { readOk := true, empty := false, areas := areas, toImage := .ok [7], now := 20 }

/-- A configuration naming three handlers, the last of them unknown. -/
def lastUnknownConfiguration : Configuration :=
  mockConfiguration (30 * second) ["console", "archive", "bogus"] "data"

/-- The archive handler that `newMotionHandler` builds for the data directory `data`. -/
def sampleArchiveHandler : MotionHandler MemWorld := .archiveHandler "data"

/-- The mail handler that `newMotionHandler` builds for the data directory `data` and the
mail settings of the tests. -/
def sampleMailHandler : MotionHandler MemWorld :=
  .mailHandler (newMailSender (mockConfiguration (30 * second) [] "data"))
    "user@example.net" ["someone@example.net"] "data"

/-- The world whose file system holds the directory `data` and nothing else. -/
def dataDirWorld : MemWorld := { MemWorld.empty with dirs := ["data"] }

/-- The handlers that `newMotionHandler` builds for the names console, archive and mail,
for the data directory `data` and the mail settings of the tests. -/
def consoleArchiveMail : List (MotionHandler MemWorld) :=
  [.consoleHandler, sampleArchiveHandler, sampleMailHandler]

/-- A runner in mid-run with the recording handlers `A`, `B`, `C`: threshold 10, three
events handled, `MinInterval` 5. -/
def recordingRunner : Runner MemWorld :=
  { config := mockConfiguration 5 [] "data", handlers := handlersABC, threshold := 10,
    eventCount := 3 }

/-- A runner whose counter has reached the largest `int`: threshold 10, `MinInterval` 5. -/
def fullRunner : Runner MemWorld :=
  { config := mockConfiguration 5 [] "data", handlers := [], threshold := 10,
    eventCount := maxInt }

/-- A handler that hangs, registered before the recording handler `C`. -/
def hungThenC : List (Option (MotionHandler MemWorld)) :=
  [none, some (recordingHandler ("C", none))]

/-- A handler that hangs, registered between the recording handlers `A` and `C`. -/
def hungBetweenAC : List (Option (MotionHandler MemWorld)) :=
  [some (recordingHandler ("A", none)), none, some (recordingHandler ("C", none))]

/-! ## Run: one call -/

theorem Run_config (r : Runner W) (d : MotionDetector) : (Run r d).runner.config = r.config := by
  unfold Run
  split
  · rfl
  · rfl
  · split <;> rfl

theorem Run_handlers (r : Runner W) (d : MotionDetector) :
    (Run r d).runner.handlers = r.handlers := by
  unfold Run
  split
  · rfl
  · rfl
  · split <;> rfl

theorem wrapInt_of_range (x : Int) (h1 : minInt ≤ x) (h2 : x ≤ maxInt) : wrapInt x = x := by
  simp only [minInt, maxInt] at h1 h2
  simp only [wrapInt]
  omega

theorem wrapInt_range (x : Int) : minInt ≤ wrapInt x ∧ wrapInt x ≤ maxInt := by
  simp only [wrapInt, minInt, maxInt]
  omega

theorem wrapInt_add (a b : Int) : wrapInt (wrapInt a + b) = wrapInt (a + b) := by
  simp only [wrapInt]
  omega

theorem Run_event_after (r : Runner W) (d : MotionDetector) (evt : MotionEvent)
    (hd : d.DetectMotion r.config.ShowVideo r.config.MinArea = (some evt, none))
    (h : r.threshold < evt.Timestamp) :
    Run r d =
      { runner := { r with
          eventCount := wrapInt (r.eventCount + 1)
          threshold := evt.Timestamp + r.config.MinInterval }
        err := none
        spawned := some evt } := by
  simp [Run, hd, After, Add, h]

theorem Run_event_not_after (r : Runner W) (d : MotionDetector) (evt : MotionEvent)
    (hd : d.DetectMotion r.config.ShowVideo r.config.MinArea = (some evt, none))
    (h : evt.Timestamp ≤ r.threshold) :
    Run r d = { runner := r, err := none, spawned := none } := by
  simp [Run, hd, After, not_lt.mpr h]

theorem Run_no_event (r : Runner W) (d : MotionDetector) (err : Option Error)
    (hd : d.DetectMotion r.config.ShowVideo r.config.MinArea = (none, err)) :
    Run r d = { runner := r, err := err, spawned := none } := by
  cases err <;> simp [Run, hd]

theorem handleEach_nil (lib : Lib W) (evt : MotionEvent) (w : W) :
    handleEach lib [] evt w = ([], w) := rfl

theorem handleEach_cons (lib : Lib W) (h : MotionHandler W) (hs : List (MotionHandler W))
    (evt : MotionEvent) (w : W) :
    handleEach lib (h :: hs) evt w =
      ((h.Handle lib evt w).1 :: (handleEach lib hs evt (afterHandler lib h evt w)).1,
        (handleEach lib hs evt (afterHandler lib h evt w)).2) := rfl

theorem handleEach_length (lib : Lib W) (hs : List (MotionHandler W)) (evt : MotionEvent)
    (w : W) : (handleEach lib hs evt w).1.length = hs.length := by
  induction hs generalizing w with
  | nil => rfl
  | cons h hs ih => rw [handleEach_cons]; simp [ih]

/-- A call of `Run` that admits an event hands it to the goroutine, which calls the
handlers of the runner on it and then logs the new count. -/
theorem runAndDispatch_after (lib : Lib W) (r : Runner W) (d : MotionDetector)
    (evt : MotionEvent) (w : W)
    (hd : d.DetectMotion r.config.ShowVideo r.config.MinArea = (some evt, none))
    (h : r.threshold < evt.Timestamp) :
    runAndDispatch lib r d w =
      ((handleEach lib r.handlers evt w).1,
        lib.Printf (toString (wrapInt (r.eventCount + 1)) ++ " motion events handled\n")
          (handleEach lib r.handlers evt w).2) := by
  simp only [runAndDispatch, Run_event_after r d evt hd h, goroutine]

theorem runAndDispatch_not_spawned (lib : Lib W) (r : Runner W) (d : MotionDetector) (w : W)
    (h : (Run r d).spawned = none) : runAndDispatch lib r d w = ([], w) := by
  simp only [runAndDispatch, h]

/-- Claim C1.  When the detector returns an event (and no error) to `Run`, `Run` admits the
event exactly when its timestamp is strictly after the threshold.  When it admits, the
threshold becomes timestamp + `MinInterval`, `eventCount` is incremented (to `n + 1` for
every `n` below the largest `int`), no error is returned, and the goroutine `Run` spawns
calls `Handle` of every handler of the runner with that event.  When the timestamp is not
after the threshold, the runner (threshold and `eventCount` included) is unchanged, no
goroutine is spawned, no handler is called and the world is left as it was. -/
theorem C1_run_admits_iff_after_threshold (lib : Lib W) (r : Runner W) (d : MotionDetector)
    (evt : MotionEvent) (w : W)
    (hd : d.DetectMotion r.config.ShowVideo r.config.MinArea = (some evt, none)) :
    ((Run r d).spawned = some evt ↔ r.threshold < evt.Timestamp) ∧
    ((Run r d).spawned ≠ none ↔ r.threshold < evt.Timestamp) ∧
    (r.threshold < evt.Timestamp →
      (Run r d).runner.threshold = evt.Timestamp + r.config.MinInterval ∧
      (Run r d).runner.eventCount = wrapInt (r.eventCount + 1) ∧
      (minInt ≤ r.eventCount → r.eventCount < maxInt →
        (Run r d).runner.eventCount = r.eventCount + 1) ∧
      (Run r d).err = none ∧
      (Run r d).runner.handlers = r.handlers ∧
      (Run r d).runner.config = r.config ∧
      (runAndDispatch lib r d w).1 = (handleEach lib r.handlers evt w).1 ∧
      (runAndDispatch lib r d w).1.length = r.handlers.length ∧
      (runAndDispatch lib r d w).2 =
        lib.Printf (toString (wrapInt (r.eventCount + 1)) ++ " motion events handled\n")
          (handleEach lib r.handlers evt w).2) ∧
    (evt.Timestamp ≤ r.threshold →
      (Run r d).runner = r ∧ (Run r d).spawned = none ∧ (Run r d).err = none ∧
      runAndDispatch lib r d w = ([], w)) := by
  rcases lt_or_le r.threshold evt.Timestamp with h | h
  · rw [runAndDispatch_after lib r d evt w hd h, Run_event_after r d evt hd h]
    refine ⟨by simp [h], by simp [h], fun _ => ⟨rfl, rfl, fun h1 h2 => ?_, rfl, rfl, rfl, rfl,
      handleEach_length lib r.handlers evt w, rfl⟩, fun h2 => absurd h (not_lt.mpr h2)⟩
    exact wrapInt_of_range _ (by omega) (by omega)
  · rw [runAndDispatch_not_spawned lib r d w (by rw [Run_event_not_after r d evt hd h]),
      Run_event_not_after r d evt hd h]
    refine ⟨by simp [not_lt.mpr h], by simp [not_lt.mpr h],
      fun h2 => absurd h2 (not_lt.mpr h), fun _ => ⟨rfl, rfl, rfl, rfl⟩⟩

/-- Witness of C1: threshold 10, `MinInterval` 5, `eventCount` 3, the recording handlers
`A`, `B`, `C` and an event at 11. -/
theorem C1_run_admits_iff_after_threshold_witness :
    (Run recordingRunner (mockMotionDetector ⟨[], 11⟩)).runner.threshold = 16 ∧
    (Run recordingRunner (mockMotionDetector ⟨[], 11⟩)).runner.eventCount = 3 + 1 ∧
    (runAndDispatch memLib recordingRunner (mockMotionDetector ⟨[], 11⟩)
      MemWorld.empty).1.length = 3 :=
  let h := (C1_run_admits_iff_after_threshold memLib recordingRunner
    (mockMotionDetector ⟨[], 11⟩) ⟨[], 11⟩ MemWorld.empty rfl).2.2.1 (by decide)
  ⟨h.1, h.2.2.1 (by decide) (by decide), h.2.2.2.2.2.2.2.1⟩

/-! ## Run: successive calls -/

theorem runs_nil (r : Runner W) : runs r [] = (r, []) := rfl

theorem runs_cons (r : Runner W) (d : MotionDetector) (ds : List MotionDetector) :
    runs r (d :: ds) =
      ((runs (Run r d).runner ds).1, (Run r d).spawned.toList ++ (runs (Run r d).runner ds).2) :=
  rfl

theorem runs_config (r : Runner W) (ds : List MotionDetector) :
    (runs r ds).1.config = r.config := by
  induction ds generalizing r with
  | nil => rfl
  | cons d ds ih => rw [runs_cons]; simp only; rw [ih, Run_config]

theorem Run_eventCount (r : Runner W) (d : MotionDetector) :
    (Run r d).runner.eventCount =
      if (Run r d).spawned.isSome then wrapInt (r.eventCount + 1) else r.eventCount := by
  unfold Run
  split
  · simp
  · simp
  · split <;> simp

/-- After any calls of `Run` the counter holds the wrapped number of admitted events. -/
theorem runs_eventCount_wrap (r : Runner W) (ds : List MotionDetector)
    (h1 : minInt ≤ r.eventCount) (h2 : r.eventCount ≤ maxInt) :
    (runs r ds).1.eventCount = wrapInt (r.eventCount + (runs r ds).2.length) := by
  induction ds generalizing r with
  | nil => simp [runs, wrapInt_of_range _ h1 h2]
  | cons d ds ih =>
    rw [runs_cons]
    simp only [List.length_append]
    cases hs : (Run r d).spawned with
    | none =>
      have he : (Run r d).runner.eventCount = r.eventCount := by
        rw [Run_eventCount, hs]; rfl
      rw [ih (Run r d).runner (he ▸ h1) (he ▸ h2), he]
      simp [Option.toList]
    | some e =>
      have he : (Run r d).runner.eventCount = wrapInt (r.eventCount + 1) := by
        rw [Run_eventCount, hs]; rfl
      have hr := wrapInt_range (r.eventCount + 1)
      rw [ih (Run r d).runner (he ▸ hr.1) (he ▸ hr.2), he, wrapInt_add]
      simp only [Option.toList, List.length_singleton]
      push_cast
      congr 1
      ring

/-- While the counter does not pass the largest `int`, it holds the number of admitted
events. -/
theorem runs_eventCount (r : Runner W) (ds : List MotionDetector)
    (h1 : minInt ≤ r.eventCount) (h2 : r.eventCount + (runs r ds).2.length ≤ maxInt) :
    (runs r ds).1.eventCount = r.eventCount + (runs r ds).2.length := by
  rw [runs_eventCount_wrap r ds h1 (by omega)]
  exact wrapInt_of_range _ (by omega) h2

/-- After an admission at `prev`, the calls of `Run` on a list of events admit the greedy
selection from `prev`. -/
theorem runs_greedyFrom (r : Runner W) (es : List MotionEvent) (prev : Time)
    (h : r.threshold = prev + r.config.MinInterval) :
    (runs r (es.map mockMotionDetector)).2.map (·.Timestamp) =
        greedyFrom r.config.MinInterval prev (es.map (·.Timestamp)) := by
  induction es generalizing r prev with
  | nil => simp [runs, greedyFrom]
  | cons e es ih =>
    simp only [List.map_cons, runs_cons, greedyFrom]
    rcases lt_or_le r.threshold e.Timestamp with hlt | hle
    · rw [Run_event_after r (mockMotionDetector e) e rfl hlt]
      have := ih { r with eventCount := wrapInt (r.eventCount + 1)
                          threshold := e.Timestamp + r.config.MinInterval } e.Timestamp rfl
      simp only at this
      rw [if_pos (h ▸ hlt)]
      simp only [Option.toList, List.map_append, List.map_cons, List.map_nil,
        List.singleton_append, this]
    · rw [Run_event_not_after r (mockMotionDetector e) e rfl hle]
      have := ih r prev h
      rw [if_neg (by rw [← h]; exact not_lt.mpr hle)]
      simpa using this

/-- From a threshold before the first event, the calls of `Run` on a list of events admit
the greedy leading-edge selection. -/
theorem runs_greedySelection (r : Runner W) (es : List MotionEvent)
    (hfirst : ∀ e ∈ es.head?, r.threshold < e.Timestamp) :
    (runs r (es.map mockMotionDetector)).2.map (·.Timestamp) =
      greedySelection r.config.MinInterval (es.map (·.Timestamp)) := by
  cases es with
  | nil => simp [runs, greedySelection]
  | cons e es =>
    have hlt : r.threshold < e.Timestamp := hfirst e (by simp)
    simp only [List.map_cons, runs_cons, greedySelection]
    rw [Run_event_after r (mockMotionDetector e) e rfl hlt]
    have := runs_greedyFrom { r with eventCount := wrapInt (r.eventCount + 1)
                                     threshold := e.Timestamp + r.config.MinInterval }
      es e.Timestamp rfl
    simp only at this
    simp [this]

/-- Claim C2.  Feed `Run` a strictly increasing sequence of event timestamps, from
`eventCount = 0` and a threshold earlier than the first: the timestamps admitted are
exactly the greedy leading-edge selection (the first, then each one later than the most
recently admitted plus `MinInterval`), and the final `eventCount` is their number (as a Go
`int`: the number itself as long as it does not pass the largest `int`).  With a 5 s
interval, detections at 0 s, 1 s and 6 s give `eventCount` 2; with a 30 s interval, three
detections in one burst give `eventCount` 1. -/
theorem C2_eventCount_is_greedy_selection (r : Runner W) (es : List MotionEvent)
    (h0 : r.eventCount = 0)
    (_hinc : (es.map (·.Timestamp)).Pairwise (· < ·))
    (hfirst : ∀ e ∈ es.head?, r.threshold < e.Timestamp) :
    ((runs r (es.map mockMotionDetector)).2.map (·.Timestamp) =
        greedySelection r.config.MinInterval (es.map (·.Timestamp)) ∧
      (runs r (es.map mockMotionDetector)).2.length =
        (greedySelection r.config.MinInterval (es.map (·.Timestamp))).length ∧
      (runs r (es.map mockMotionDetector)).1.eventCount =
        wrapInt (greedySelection r.config.MinInterval (es.map (·.Timestamp))).length ∧
      (((greedySelection r.config.MinInterval (es.map (·.Timestamp))).length : Int) ≤ maxInt →
        (runs r (es.map mockMotionDetector)).1.eventCount =
          (greedySelection r.config.MinInterval (es.map (·.Timestamp))).length)) ∧
    (runs (freshRunner (5 * second))
        ([0, 1 * second, 6 * second].map (fun t => mockMotionDetector ⟨[], t⟩))).1.eventCount = 2 ∧
    (runs (freshRunner (30 * second))
        ([1000, 2000, 3000].map (fun t => mockMotionDetector ⟨[], t⟩))).1.eventCount = 1 := by
  refine ⟨?_, by decide, by decide⟩
  have hsel := runs_greedySelection r es hfirst
  have hlen : (runs r (es.map mockMotionDetector)).2.length =
      (greedySelection r.config.MinInterval (es.map (·.Timestamp))).length := by
    rw [← hsel, List.length_map]
  have hmin : minInt ≤ r.eventCount := by rw [h0]; decide
  have hmax : r.eventCount ≤ maxInt := by rw [h0]; decide
  have hw := runs_eventCount_wrap r (es.map mockMotionDetector) hmin hmax
  rw [h0, zero_add, hlen] at hw
  refine ⟨hsel, hlen, hw, fun hle => ?_⟩
  rw [hw]
  exact wrapInt_of_range _ (le_trans (by decide) (Int.natCast_nonneg _)) hle

/-- Witness of C2: a 5 s interval and detections at 0 s, 1 s and 6 s. -/
theorem C2_eventCount_is_greedy_selection_witness :
    (runs (freshRunner (5 * second))
        ([⟨[], 0⟩, ⟨[], 1 * second⟩, ⟨[], 6 * second⟩].map mockMotionDetector)).2.map
          (·.Timestamp) = [0, 6 * second] ∧
    (runs (freshRunner (5 * second))
        ([⟨[], 0⟩, ⟨[], 1 * second⟩, ⟨[], 6 * second⟩].map mockMotionDetector)).1.eventCount = 2 :=
  let h := (C2_eventCount_is_greedy_selection (freshRunner (5 * second))
    [⟨[], 0⟩, ⟨[], 1 * second⟩, ⟨[], 6 * second⟩] rfl (by decide) (by decide)).1
  ⟨h.1, h.2.2.2 (by decide)⟩

/-! ## Dispatch -/

theorem handleEach_getElem? (lib : Lib W) (hs : List (MotionHandler W)) (evt : MotionEvent)
    (w : W) (i : Nat) (h : MotionHandler W) (hi : hs[i]? = some h) :
    (handleEach lib hs evt w).1[i]? =
      some (h.Handle lib evt (handleEach lib (hs.take i) evt w).2).1 := by
  induction hs generalizing w i with
  | nil => simp at hi
  | cons h0 hs ih =>
    rw [handleEach_cons]
    cases i with
    | zero =>
      simp only [List.getElem?_cons_zero, Option.some.injEq] at hi
      subst hi
      simp [handleEach_nil]
    | succ i =>
      simp only [List.getElem?_cons_succ] at hi
      simp only [List.getElem?_cons_succ, List.take_succ_cons, handleEach_cons]
      exact ih _ i hi

theorem handleEach_recording (specs : List (String × Option Error)) (evt : MotionEvent)
    (m : MemWorld) :
    (handleEach memLib (specs.map recordingHandler) evt m).1 = specs.map (·.2) ∧
    (handleEach memLib (specs.map recordingHandler) evt m).2.calls =
      m.calls ++ specs.map (fun s => (s.1, evt)) := by
  induction specs generalizing m with
  | nil => simp [handleEach_nil]
  | cons s specs ih =>
    rw [List.map_cons, handleEach_cons]
    have hc : (afterHandler memLib (recordingHandler s) evt m).calls = m.calls ++ [(s.1, evt)] := by
      rcases s with ⟨name, _ | err⟩ <;> rfl
    obtain ⟨h1, h2⟩ := ih (afterHandler memLib (recordingHandler s) evt m)
    refine ⟨?_, ?_⟩
    · simp only [h1, List.map_cons]
      rfl
    · simp only [h2, hc, List.map_cons, List.append_assoc, List.singleton_append]

theorem Run_err (r : Runner W) (d : MotionDetector) :
    (Run r d).err = (d.DetectMotion r.config.ShowVideo r.config.MinArea).2 := by
  unfold Run
  split
  · next h => simp [h]
  · next h => simp [h]
  · next h => split <;> simp [h]

theorem Run_spawned_err (r : Runner W) (d : MotionDetector) (e : MotionEvent)
    (h : (Run r d).spawned = some e) : (Run r d).err = none := by
  unfold Run at h ⊢
  split at h
  · simp at h
  · simp at h
  · split at h
    · simp [*]
    · simp at h

/-! ## The detector -/

theorem DetectMotion_read_failed (c : Capture) (showVideo : Bool) (minimumArea : ℚ)
    (h : c.readOk = false) :
    DetectMotion c showVideo minimumArea =
      (none, some (.msg "video capture device is closed")) := by
  simp [DetectMotion, h]

theorem DetectMotion_empty_frame (c : Capture) (showVideo : Bool) (minimumArea : ℚ)
    (h : c.readOk = true) (he : c.empty = true) :
    DetectMotion c showVideo minimumArea = (none, none) := by
  simp [DetectMotion, h, he]

/-- The loop over the contours sets `motion` exactly when some area is not below the
minimal area. -/
theorem motion_foldl (minimumArea : ℚ) (areas : List ℚ) (b : Bool) :
    areas.foldl (fun motion area => if area < minimumArea then motion else true) b = true ↔
      b = true ∨ ∃ a ∈ areas, minimumArea ≤ a := by
  induction areas generalizing b with
  | nil => simp
  | cons a as ih =>
    rw [List.foldl_cons, ih]
    by_cases h : a < minimumArea
    · simp only [h, if_true, List.mem_cons, exists_eq_or_imp, not_le.mpr h, false_or]
    · simp [h, not_lt.mp h]

theorem DetectMotion_frame (c : Capture) (showVideo : Bool) (minimumArea : ℚ) (frame : Image)
    (h : c.readOk = true) (he : c.empty = false) (hf : c.toImage = .ok frame) :
    DetectMotion c showVideo minimumArea =
      if ∃ a ∈ c.areas, minimumArea ≤ a then (some { Frame := frame, Timestamp := c.now }, none)
      else (none, none) := by
  have hm := motion_foldl minimumArea c.areas false
  simp only [Bool.false_eq_true, false_or] at hm
  by_cases hx : ∃ a ∈ c.areas, minimumArea ≤ a
  · simp only [DetectMotion, h, he, hm.mpr hx, hf, if_pos hx]
    simp
  · have hmf : c.areas.foldl
        (fun motion area => if area < minimumArea then motion else true) false = false := by
      cases hb : c.areas.foldl
        (fun motion area => if area < minimumArea then motion else true) false
      · rfl
      · exact absurd (hm.mp hb) hx
    simp only [DetectMotion, h, he, hmf, if_neg hx]
    simp

/-- Claim C4.  When the detector yields no event, `Run` leaves the runner (threshold and
`eventCount` included) unchanged, spawns no dispatch and returns the detector's error.  A
successful read of an empty frame makes `DetectMotion` return no event and no error, and
`Run` no error; a failed read makes `DetectMotion` return an error and no event, and `Run`
that same error. -/
theorem C4_no_event_leaves_state (r : Runner W) (c : Capture) (opened : Option Error)
    (showVideo : Bool) (minimumArea : ℚ) :
    (∀ (d : MotionDetector) (err : Option Error),
      d.DetectMotion r.config.ShowVideo r.config.MinArea = (none, err) →
      Run r d = { runner := r, err := err, spawned := none }) ∧
    (c.readOk = true → c.empty = true →
      DetectMotion c showVideo minimumArea = (none, none) ∧
      Run r (openCVMotionDetector opened c) = { runner := r, err := none, spawned := none }) ∧
    (c.readOk = false →
      DetectMotion c showVideo minimumArea =
        (none, some (.msg "video capture device is closed")) ∧
      Run r (openCVMotionDetector opened c) =
        { runner := r, err := (DetectMotion c showVideo minimumArea).2, spawned := none }) := by
  refine ⟨fun d err hd => Run_no_event r d err hd, fun h he => ⟨?_, ?_⟩, fun h => ⟨?_, ?_⟩⟩
  · exact DetectMotion_empty_frame c _ _ h he
  · exact Run_no_event r (openCVMotionDetector opened c) none
      (DetectMotion_empty_frame c r.config.ShowVideo r.config.MinArea h he)
  · exact DetectMotion_read_failed c _ _ h
  · rw [DetectMotion_read_failed c showVideo minimumArea h]
    exact Run_no_event r (openCVMotionDetector opened c) _
      (DetectMotion_read_failed c r.config.ShowVideo r.config.MinArea h)

/-- Witness of C4: an empty frame and a failed read, on a runner in mid-run. -/
theorem C4_no_event_leaves_state_witness :
    Run sampleRunner (openCVMotionDetector none emptyFrameCapture) =
        { runner := sampleRunner, err := none, spawned := none } ∧
    Run sampleRunner (openCVMotionDetector none failedReadCapture) =
        { runner := sampleRunner, err := some (.msg "video capture device is closed"),
          spawned := none } :=
  ⟨((C4_no_event_leaves_state sampleRunner emptyFrameCapture none false 10000).2.1 rfl rfl).2,
    ((C4_no_event_leaves_state sampleRunner failedReadCapture none false 10000).2.2 rfl).2⟩

/-- Counterexample to C5 as stated: with `minArea` 10000, a frame whose only contour has
area exactly 10000 produces a motion event. -/
theorem C5_area_exactly_minArea_is_motion :
    DetectMotion (frameCapture [10000]) false 10000 =
      (some { Frame := [7], Timestamp := 20 }, none) := by
  rw [DetectMotion_frame (frameCapture [10000]) false 10000 [7] rfl rfl rfl]
  simp [frameCapture]

/-- Claim C5, amended.  The area filter of `DetectMotion` is not strict: on a frame that
is read, is not empty and converts to an image, an event is produced exactly when some
contour has an area of at least `minArea`.  So a frame whose only contour has area exactly
`minArea` produces an event, as does one with area `minArea + 1`, while a frame whose
only contour is below `minArea` produces none. -/
theorem C5_area_filter_inclusive (c : Capture) (showVideo : Bool) (minArea : ℚ) (frame : Image)
    (h : c.readOk = true) (he : c.empty = false) (hf : c.toImage = .ok frame) :
    ((DetectMotion c showVideo minArea).1 = some { Frame := frame, Timestamp := c.now } ↔
      ∃ a ∈ c.areas, minArea ≤ a) ∧
    ((DetectMotion c showVideo minArea).1 = none ↔ ∀ a ∈ c.areas, a < minArea) ∧
    (c.areas = [minArea] →
      DetectMotion c showVideo minArea = (some { Frame := frame, Timestamp := c.now }, none)) ∧
    (c.areas = [minArea + 1] →
      DetectMotion c showVideo minArea = (some { Frame := frame, Timestamp := c.now }, none)) ∧
    (∀ a, a < minArea → c.areas = [a] → DetectMotion c showVideo minArea = (none, none)) := by
  rw [DetectMotion_frame c showVideo minArea frame h he hf]
  refine ⟨?_, ?_, ?_, ?_, ?_⟩
  · by_cases hx : ∃ a ∈ c.areas, minArea ≤ a <;> simp [hx]
  · by_cases hx : ∃ a ∈ c.areas, minArea ≤ a
    · simp only [if_pos hx, reduceCtorEq, false_iff, not_forall, not_lt]
      obtain ⟨a, ha, hle⟩ := hx
      exact ⟨a, ha, hle⟩
    · simp only [if_neg hx, true_iff]
      intro a ha
      exact lt_of_not_le (fun hle => hx ⟨a, ha, hle⟩)
  · intro hs
    simp [hs]
  · intro hs
    simp [hs]
  · intro a ha hs
    simp [hs, not_le.mpr ha]

/-- Witness of C5 (amended): minimal area 10000 and a single contour of area 10001. -/
theorem C5_area_filter_inclusive_witness :
    DetectMotion (frameCapture [10001]) false 10000 =
      (some { Frame := [7], Timestamp := 20 }, none) :=
  (C5_area_filter_inclusive (frameCapture [10001]) false 10000 [7] rfl rfl rfl).2.2.2.1
    (by simp [frameCapture]; norm_num)

/-! ## The registry -/

theorem newMotionHandler_unknown (name : String) (config : Configuration)
    (h : (newMotionHandler (W := W) name config).2 ≠ none) :
    newMotionHandler (W := W) name config =
      (none, some (.msg ("unknown handler: " ++ name))) := by
  unfold newMotionHandler at h ⊢
  split_ifs at h ⊢ <;> simp_all

theorem newMotionHandler_known (name : String) (config : Configuration)
    (h : (newMotionHandler (W := W) name config).2 = none) :
    ∃ m, newMotionHandler (W := W) name config = (some m, none) := by
  unfold newMotionHandler at h ⊢
  split_ifs at h ⊢ <;> exact ⟨_, rfl⟩

/-- The registration loop stops at the first unknown name, keeping what it registered. -/
theorem registerHandlers_unknown (config : Configuration) (pre : List String) (name : String)
    (post : List String) (hs : List (MotionHandler W))
    (hpre : ∀ n ∈ pre, (newMotionHandler (W := W) n config).2 = none)
    (hname : (newMotionHandler (W := W) name config).2 ≠ none) :
    registerHandlers config (pre ++ name :: post) hs =
      (hs ++ pre.filterMap (fun n => (newMotionHandler (W := W) n config).1),
        some (.msg ("unknown handler: " ++ name))) := by
  induction pre generalizing hs with
  | nil =>
    simp only [List.nil_append, registerHandlers, newMotionHandler_unknown name config hname,
      List.filterMap_nil, List.append_nil]
  | cons n pre ih =>
    obtain ⟨m, hm⟩ := newMotionHandler_known (W := W) n config (hpre n (by simp))
    show registerHandlers config (n :: (pre ++ name :: post)) hs = _
    simp only [registerHandlers, hm, List.filterMap_cons]
    rw [ih (hs ++ [m]) (fun k hk => hpre k (by simp [hk]))]
    simp

theorem filterMap_known_length (config : Configuration) (pre : List String)
    (hpre : ∀ n ∈ pre, (newMotionHandler (W := W) n config).2 = none) :
    (pre.filterMap (fun n => (newMotionHandler (W := W) n config).1)).length = pre.length := by
  induction pre with
  | nil => rfl
  | cons n pre ih =>
    obtain ⟨m, hm⟩ := newMotionHandler_known (W := W) n config (hpre n (by simp))
    simp only [List.filterMap_cons, hm, List.length_cons]
    rw [ih (fun k hk => hpre k (by simp [hk]))]

/-- Counterexample to C6 as stated: with the names console, archive and an unknown third
one, `Init` fails and leaves the first two handlers registered. -/
theorem C6_init_keeps_earlier_handlers :
    (Init (NewRunner lastUnknownConfiguration : Runner MemWorld)
        (mockMotionDetector testMotionEvent) 100).2 = some (.msg "unknown handler: bogus") ∧
    (Init (NewRunner lastUnknownConfiguration : Runner MemWorld)
        (mockMotionDetector testMotionEvent) 100).1.handlers.length = 2 := by
  decide

/-- Claim C6, amended.  When the device opens and the configured names hold a name that
`newMotionHandler` does not recognise, `Init` returns the error naming the first such name
and stops there: the handlers registered are exactly those of the names before it, in
order (none of them only when the unknown name comes first), no handler of a later name is
registered, and the threshold is not set. -/
theorem C6_init_stops_at_first_unknown (r : Runner W) (d : MotionDetector) (now : Time)
    (pre : List String) (name : String) (post : List String)
    (hopen : d.OpenDevice r.config.DeviceID = none)
    (hcfg : r.config.Handlers = pre ++ name :: post)
    (hpre : ∀ n ∈ pre, (newMotionHandler (W := W) n r.config).2 = none)
    (hname : (newMotionHandler (W := W) name r.config).2 ≠ none) :
    (Init r d now).2 = some (.msg ("unknown handler: " ++ name)) ∧
    (Init r d now).1.handlers =
      r.handlers ++ pre.filterMap (fun n => (newMotionHandler (W := W) n r.config).1) ∧
    (Init r d now).1.handlers.length = r.handlers.length + pre.length ∧
    (Init r d now).1.threshold = r.threshold ∧
    (r.handlers = [] → ((Init r d now).1.handlers = [] ↔ pre = [])) := by
  have hI : Init r d now =
      ({ r with handlers :=
          r.handlers ++ pre.filterMap (fun n => (newMotionHandler (W := W) n r.config).1) },
        some (.msg ("unknown handler: " ++ name))) := by
    simp only [Init, hopen]
    rw [hcfg, registerHandlers_unknown r.config pre name post r.handlers hpre hname]
  have hlen := filterMap_known_length (W := W) r.config pre hpre
  rw [hI]
  refine ⟨rfl, rfl, by simp [hlen], rfl, ?_⟩
  intro hnil
  simp only [hnil, List.nil_append]
  rw [← List.length_eq_zero, hlen, List.length_eq_zero]

/-- Witness of C6 (amended): the names console, archive and an unknown third one. -/
theorem C6_init_stops_at_first_unknown_witness :
    (Init (NewRunner lastUnknownConfiguration : Runner MemWorld)
        (mockMotionDetector testMotionEvent) 100).1.handlers.length = 0 + 2 :=
  (C6_init_stops_at_first_unknown (NewRunner lastUnknownConfiguration : Runner MemWorld)
    (mockMotionDetector testMotionEvent) 100 ["console", "archive"] "bogus" [] rfl rfl
    (by decide) (by decide)).2.2.1

/-! ## Monotonicity of the debounce state -/

theorem Run_not_spawned (r : Runner W) (d : MotionDetector) (h : (Run r d).spawned = none) :
    (Run r d).runner = r := by
  unfold Run at h ⊢
  split
  · rfl
  · rfl
  · next hd =>
    simp only [hd] at h
    split at h
    · simp at h
    · simp [*]

theorem Run_threshold_le (r : Runner W) (d : MotionDetector) (hI : 0 ≤ r.config.MinInterval) :
    r.threshold ≤ (Run r d).runner.threshold := by
  unfold Run
  split
  · exact le_refl _
  · exact le_refl _
  · split
    · next h =>
      simp only [After, decide_eq_true_eq] at h
      show r.threshold ≤ _ + r.config.MinInterval
      linarith
    · exact le_refl _

theorem runs_threshold_le (r : Runner W) (ds : List MotionDetector)
    (hI : 0 ≤ r.config.MinInterval) : r.threshold ≤ (runs r ds).1.threshold := by
  induction ds generalizing r with
  | nil => exact le_refl _
  | cons d ds ih =>
    rw [runs_cons]
    exact le_trans (Run_threshold_le r d hI) (ih (Run r d).runner (by rw [Run_config]; exact hI))

/-- No more events are admitted than `Run` is called. -/
theorem runs_admitted_le (r : Runner W) (ds : List MotionDetector) :
    (runs r ds).2.length ≤ ds.length := by
  induction ds generalizing r with
  | nil => simp [runs]
  | cons d ds ih =>
    rw [runs_cons]
    have := ih (Run r d).runner
    cases (Run r d).spawned with
    | none => simp only [Option.toList, List.nil_append, List.length_cons]; omega
    | some e => simp only [Option.toList, List.singleton_append, List.length_cons]; omega

/-- Counterexample to C7 as stated: with `MinInterval` of -5 and threshold 10, admitting
an event at 11 lowers the threshold to 6; and with `eventCount` at the largest `int`,
admitting an event takes `eventCount` down to the smallest `int`. -/
theorem C7_threshold_decreases_negative_interval :
    (Run negativeIntervalRunner (mockMotionDetector ⟨[], 11⟩)).spawned = some ⟨[], 11⟩ ∧
    (Run negativeIntervalRunner (mockMotionDetector ⟨[], 11⟩)).runner.threshold = 6 ∧
    (Run negativeIntervalRunner (mockMotionDetector ⟨[], 11⟩)).runner.threshold <
      negativeIntervalRunner.threshold ∧
    (Run fullRunner (mockMotionDetector ⟨[], 11⟩)).spawned = some ⟨[], 11⟩ ∧
    (Run fullRunner (mockMotionDetector ⟨[], 11⟩)).runner.eventCount = minInt ∧
    (Run fullRunner (mockMotionDetector ⟨[], 11⟩)).runner.eventCount < fullRunner.eventCount := by
  decide

/-- Claim C7, amended.  Under every sequence of `Run` calls and every configuration, a
call of `Run` increments `eventCount` when it admits an event and leaves the whole runner
unchanged when it spawns no dispatch.  As long as `eventCount` stays below the largest
`int`, the increment adds exactly one, so `eventCount` never decreases and after any
sequence of calls has grown by the number of admitted events; this holds in particular
when the count plus the number of calls does not pass the largest `int`.  The threshold
never decreases, from one call to the next and over any sequence, when `MinInterval` is
not negative. -/
theorem C7_debounce_state_monotone (r : Runner W) (d : MotionDetector)
    (ds : List MotionDetector) :
    (Run r d).runner.eventCount =
      (if (Run r d).spawned.isSome then wrapInt (r.eventCount + 1) else r.eventCount) ∧
    ((Run r d).spawned = none → (Run r d).runner = r) ∧
    (minInt ≤ r.eventCount → r.eventCount < maxInt →
      (Run r d).runner.eventCount =
        r.eventCount + (if (Run r d).spawned.isSome then 1 else 0) ∧
      r.eventCount ≤ (Run r d).runner.eventCount) ∧
    (minInt ≤ r.eventCount → r.eventCount + (runs r ds).2.length ≤ maxInt →
      (runs r ds).1.eventCount = r.eventCount + (runs r ds).2.length ∧
      r.eventCount ≤ (runs r ds).1.eventCount) ∧
    (minInt ≤ r.eventCount → r.eventCount + ds.length ≤ maxInt →
      (runs r ds).1.eventCount = r.eventCount + (runs r ds).2.length ∧
      r.eventCount ≤ (runs r ds).1.eventCount) ∧
    (0 ≤ r.config.MinInterval →
      r.threshold ≤ (Run r d).runner.threshold ∧ r.threshold ≤ (runs r ds).1.threshold) := by
  have hseq : minInt ≤ r.eventCount → r.eventCount + (runs r ds).2.length ≤ maxInt →
      (runs r ds).1.eventCount = r.eventCount + (runs r ds).2.length ∧
      r.eventCount ≤ (runs r ds).1.eventCount := by
    intro h1 h2
    rw [runs_eventCount r ds h1 h2]
    exact ⟨rfl, by omega⟩
  refine ⟨Run_eventCount r d, Run_not_spawned r d, fun h1 h2 => ?_, hseq, fun h1 h2 => ?_,
    fun hI => ⟨Run_threshold_le r d hI, runs_threshold_le r ds hI⟩⟩
  · rw [Run_eventCount]
    split
    · rw [wrapInt_of_range _ (by omega) (by omega)]
      exact ⟨rfl, by omega⟩
    · exact ⟨by omega, le_refl _⟩
  · have := runs_admitted_le r ds
    exact hseq h1 (by omega)

/-- Witness of C7 (amended): a 5 s interval and detections at 0 s, 1 s and 6 s, from a
count of 0. -/
theorem C7_debounce_state_monotone_witness :
    (freshRunner (5 * second)).threshold ≤
      (runs (freshRunner (5 * second))
        ([0, 1 * second, 6 * second].map (fun t => mockMotionDetector ⟨[], t⟩))).1.threshold ∧
    (freshRunner (5 * second)).eventCount ≤
      (runs (freshRunner (5 * second))
        ([0, 1 * second, 6 * second].map (fun t => mockMotionDetector ⟨[], t⟩))).1.eventCount :=
  ⟨((C7_debounce_state_monotone (freshRunner (5 * second)) (mockMotionDetector ⟨[], 0⟩)
      ([0, 1 * second, 6 * second].map (fun t => mockMotionDetector ⟨[], t⟩))).2.2.2.2.2
      (by decide)).2,
    ((C7_debounce_state_monotone (freshRunner (5 * second)) (mockMotionDetector ⟨[], 0⟩)
      ([0, 1 * second, 6 * second].map (fun t => mockMotionDetector ⟨[], t⟩))).2.2.2.2.1
      (by decide) (by decide)).2⟩

/-! ## The image path -/

theorem MemWorld.file_write (w : MemWorld) (path : String) (img : Image) :
    (w.write path img).file path = some img := by
  simp [MemWorld.write, MemWorld.file]

/-- When the archive handler succeeds, it created, and encoded the frame into, the file
at the image path. -/
theorem archiveHandlerHandle_ok (lib : Lib W) (dataDir : String) (event : MotionEvent) (w : W)
    (h : (archiveHandlerHandle lib dataDir event w).1 = none) :
    ∃ w1 w2 w3,
      lib.Create (pathForImage lib event dataDir) w1 = (none, w2) ∧
      lib.Encode (pathForImage lib event dataDir) event.Frame w2 = (none, w3) ∧
      (archiveHandlerHandle lib dataDir event w).2 =
        lib.Close (pathForImage lib event dataDir)
          (lib.Printf ("Motion capture saved to " ++ pathForImage lib event dataDir ++ "\n")
            w3) := by
  unfold archiveHandlerHandle at h ⊢
  simp only at h ⊢
  split at h
  · simp at h
  · next w1 hmade =>
    split at h
    · simp at h
    · next w2 hc =>
      split at h
      · simp at h
      · next w3 he =>
        exact ⟨w1, w2, w3, hc, he, rfl⟩

theorem mailHandlerHandle_found (lib : Lib W) (sender : mailSender W) (from_ : String)
    (to_ : List String) (dataDir : String) (event : MotionEvent) (w : W)
    (h : IsNotExist (lib.Stat (pathForImage lib event dataDir) w) = false) :
    mailHandlerHandle lib sender from_ to_ dataDir event w =
      ((sender.send lib (mailHandlerMessage lib from_ to_ dataDir event) w).1,
        lib.Printf "Email sent with motion capture\n"
          (sender.send lib (mailHandlerMessage lib from_ to_ dataDir event) w).2) := by
  simp [mailHandlerHandle, h]

theorem mailHandlerHandle_missing (lib : Lib W) (sender : mailSender W) (from_ : String)
    (to_ : List String) (dataDir : String) (event : MotionEvent) (w : W)
    (h : IsNotExist (lib.Stat (pathForImage lib event dataDir) w) = true) :
    mailHandlerHandle lib sender from_ to_ dataDir event w =
      (lib.Stat (pathForImage lib event dataDir) w, w) := by
  simp [mailHandlerHandle, h]

/-- Claim C8.  The image path is `filepath.Join(dataDir, Timestamp.Format(filePattern) +
".png")`, so events with the same timestamp get the same path in the same data directory,
whatever their frames.  The archive handler, when it succeeds, has created and encoded the
file at exactly this path (in the in-memory file system the file at this path then holds
the frame), and the message the mail handler sends carries exactly this path as its
attachment. -/
theorem C8_image_path_deterministic (lib : Lib W) (event : MotionEvent) (dataDir : String)
    (w : W) (sender : mailSender W) (from_ : String) (to_ : List String) :
    pathForImage lib event dataDir =
      lib.Join dataDir (lib.Format event.Timestamp "2006-01-02-15-04-05" ++ ".png") ∧
    (∀ other : MotionEvent, other.Timestamp = event.Timestamp →
      pathForImage lib other dataDir = pathForImage lib event dataDir) ∧
    ((archiveHandlerHandle lib dataDir event w).1 = none →
      ∃ w1 w2 w3,
        lib.Create (pathForImage lib event dataDir) w1 = (none, w2) ∧
        lib.Encode (pathForImage lib event dataDir) event.Frame w2 = (none, w3) ∧
        (archiveHandlerHandle lib dataDir event w).2 =
          lib.Close (pathForImage lib event dataDir)
            (lib.Printf ("Motion capture saved to " ++ pathForImage lib event dataDir ++ "\n")
              w3)) ∧
    (∀ m : MemWorld, (archiveHandlerHandle memLib dataDir event m).1 = none →
      (archiveHandlerHandle memLib dataDir event m).2.file (pathForImage memLib event dataDir) =
        some event.Frame) ∧
    (mailHandlerMessage lib from_ to_ dataDir event).attachment =
      pathForImage lib event dataDir ∧
    (IsNotExist (lib.Stat (pathForImage lib event dataDir) w) = false →
      mailHandlerHandle lib sender from_ to_ dataDir event w =
        ((sender.send lib (mailHandlerMessage lib from_ to_ dataDir event) w).1,
          lib.Printf "Email sent with motion capture\n"
            (sender.send lib (mailHandlerMessage lib from_ to_ dataDir event) w).2)) := by
  refine ⟨rfl, ?_, archiveHandlerHandle_ok lib dataDir event w, ?_, rfl,
    mailHandlerHandle_found lib sender from_ to_ dataDir event w⟩
  · intro other h
    simp [pathForImage, h]
  · intro m h
    obtain ⟨w1, w2, w3, _, he, hw⟩ := archiveHandlerHandle_ok memLib dataDir event m h
    rw [hw]
    simp only [memLib, Prod.mk.injEq, true_and] at he
    subst he
    simp only [memLib]
    exact MemWorld.file_write w2 _ _

/-- Witness of C8: the archive handler of the tests, run on the empty file system, leaves
the frame of the event at the image path of the event. -/
theorem C8_image_path_deterministic_witness :
    (archiveHandlerHandle memLib "data" testMotionEvent MemWorld.empty).2.file
        "data/0001-01-01-00-00-00.png" = some [0, 0, 0, 0] :=
  (C8_image_path_deterministic memLib testMotionEvent "data" MemWorld.empty
    (newMailSender (mockConfiguration 0 [] "data")) "" []).2.2.2.1 MemWorld.empty (by decide)

/-! ## Order of the handlers -/

theorem handleEach_state_free (lib : Lib W) (hs : List (MotionHandler W)) (evt : MotionEvent)
    (w : W) (h : ∀ x ∈ hs, ∀ w1 w2, (x.Handle lib evt w1).1 = (x.Handle lib evt w2).1) :
    (handleEach lib hs evt w).1 = hs.map (fun x => (x.Handle lib evt w).1) := by
  induction hs generalizing w with
  | nil => rfl
  | cons x hs ih =>
    rw [handleEach_cons, List.map_cons, ih _ (fun y hy => h y (by simp [hy]))]
    simp only [List.cons.injEq, true_and]
    exact List.map_congr_left (fun y hy => h y (by simp [hy]) _ _)

/-- The archive handler, when it succeeds, went through `MkdirAll` (if needed), `Create`,
`Encode`, `Printf` and `Close` without an error, in this order. -/
theorem archiveHandlerHandle_chain (lib : Lib W) (dataDir : String) (event : MotionEvent)
    (w : W) (h : (archiveHandlerHandle lib dataDir event w).1 = none) :
    (archiveHandlerHandle lib dataDir event w).2 =
      lib.Close (pathForImage lib event dataDir)
        (lib.Printf ("Motion capture saved to " ++ pathForImage lib event dataDir ++ "\n")
          (lib.Encode (pathForImage lib event dataDir) event.Frame
            (lib.Create (pathForImage lib event dataDir)
              (if IsNotExist (lib.Stat dataDir w) then lib.MkdirAll dataDir w
                else (none, w)).2).2).2) := by
  unfold archiveHandlerHandle at h ⊢
  simp only at h ⊢
  split at h
  · simp at h
  · next w1 hmade =>
    split at h
    · simp at h
    · next w2 hc =>
      split at h
      · simp at h
      · next w3 he => simp only [hmade, hc, he]

theorem memLib_Stat (path : String) (w : MemWorld) :
    memLib.Stat path w =
      if path ∈ w.dirs ∨ (w.file path).isSome then none else some (.notExist path) := rfl

theorem memLib_AttachFile (path : String) (w : MemWorld) :
    memLib.AttachFile path w = if (w.file path).isSome then none else some (.notExist path) :=
  rfl

theorem memLib_Send (addr user password host : String) (msg : mailMessage) (w : MemWorld) :
    memLib.Send addr user password host msg w =
      (none, { w with sent := w.sent ++ [(addr, msg, (w.file msg.attachment).getD [])] }) := rfl

theorem memLib_Printf (line : String) (w : MemWorld) :
    memLib.Printf line w = { w with log := w.log ++ [line] } := rfl

theorem memLib_archive_then_file (dataDir : String) (event : MotionEvent) (m : MemWorld)
    (h : (archiveHandlerHandle memLib dataDir event m).1 = none) :
    (archiveHandlerHandle memLib dataDir event m).2.file (pathForImage memLib event dataDir) =
        some event.Frame ∧
    (archiveHandlerHandle memLib dataDir event m).2.sent = m.sent := by
  rw [archiveHandlerHandle_chain memLib dataDir event m h]
  refine ⟨MemWorld.file_write _ _ _, ?_⟩
  simp only [memLib, MemWorld.write]
  split_ifs <;> rfl

theorem memLib_archive_then_mail (dataDir : String) (event : MotionEvent) (m : MemWorld)
    (config : Configuration) (from_ : String) (to_ : List String)
    (h : (archiveHandlerHandle memLib dataDir event m).1 = none) :
    (handleEach memLib
        [.archiveHandler dataDir, .mailHandler (newMailSender config) from_ to_ dataDir]
        event m).1 = [none, none] ∧
    (handleEach memLib
        [.archiveHandler dataDir, .mailHandler (newMailSender config) from_ to_ dataDir]
        event m).2.sent =
      m.sent ++ [(config.MailConfig.ServerHost ++ ":" ++ toString config.MailConfig.ServerPort,
        mailHandlerMessage memLib from_ to_ dataDir event, event.Frame)] := by
  obtain ⟨hfile, hsent⟩ := memLib_archive_then_file dataDir event m h
  have hA : (MotionHandler.archiveHandler dataDir).Handle memLib event m =
      archiveHandlerHandle memLib dataDir event m := rfl
  have hafter : afterHandler memLib (.archiveHandler dataDir) event m =
      (archiveHandlerHandle memLib dataDir event m).2 := by
    simp only [afterHandler, hA, h]
  have hstat : memLib.Stat (pathForImage memLib event dataDir)
      (archiveHandlerHandle memLib dataDir event m).2 = none := by
    rw [memLib_Stat]
    simp [hfile]
  have hatt : (mailHandlerMessage memLib from_ to_ dataDir event).attachment =
      pathForImage memLib event dataDir := rfl
  have hattach : memLib.AttachFile (pathForImage memLib event dataDir)
      (archiveHandlerHandle memLib dataDir event m).2 = none := by
    rw [memLib_AttachFile]
    simp [hfile]
  have hmail : (mailHandlerHandle memLib (newMailSender config) from_ to_ dataDir event
        (archiveHandlerHandle memLib dataDir event m).2).1 = none ∧
      (mailHandlerHandle memLib (newMailSender config) from_ to_ dataDir event
        (archiveHandlerHandle memLib dataDir event m).2).2.sent =
      m.sent ++
        [(config.MailConfig.ServerHost ++ ":" ++ toString config.MailConfig.ServerPort,
          mailHandlerMessage memLib from_ to_ dataDir event, event.Frame)] := by
    rw [mailHandlerHandle_found _ _ _ _ _ _ _ (by rw [hstat]; rfl)]
    simp only [mailSender.send, newMailSender, hattach, memLib_Send, memLib_Printf, hatt, hfile,
      hsent, Option.getD_some]
    exact ⟨trivial, trivial⟩
  have hM : (MotionHandler.mailHandler (newMailSender config) from_ to_ dataDir).Handle memLib
      event (archiveHandlerHandle memLib dataDir event m).2 =
      mailHandlerHandle memLib (newMailSender config) from_ to_ dataDir event
        (archiveHandlerHandle memLib dataDir event m).2 := rfl
  simp only [handleEach_cons, handleEach_nil, hafter, hA, h, hM, hmail.1, afterHandler]
  exact ⟨trivial, hmail.2⟩

theorem handleEach_append (lib : Lib W) (xs ys : List (MotionHandler W)) (evt : MotionEvent)
    (w : W) :
    handleEach lib (xs ++ ys) evt w =
      ((handleEach lib xs evt w).1 ++ (handleEach lib ys evt (handleEach lib xs evt w).2).1,
        (handleEach lib ys evt (handleEach lib xs evt w).2).2) := by
  induction xs generalizing w with
  | nil => rfl
  | cons x xs ih =>
    rw [List.cons_append, handleEach_cons, ih, handleEach_cons]
    rfl

/-- The handlers before a handler get the results they get without it and without the
handlers after it. -/
theorem handleEach_take (lib : Lib W) (pre post : List (MotionHandler W)) (evt : MotionEvent)
    (w : W) :
    (handleEach lib (pre ++ post) evt w).1.take pre.length = (handleEach lib pre evt w).1 := by
  rw [handleEach_append]
  simp only
  rw [List.take_left' (handleEach_length lib pre evt w)]

theorem consoleHandler_ok (lib : Lib W) (evt : MotionEvent) (w : W) :
    (MotionHandler.consoleHandler.Handle lib evt w).1 = none := rfl

/-- A handler whose result does not depend on the world gets, at any place in the list,
the result it gets when called first. -/
theorem handleEach_state_free_at (lib : Lib W) (pre post : List (MotionHandler W))
    (x : MotionHandler W) (evt : MotionEvent) (w : W)
    (h : ∀ w1 w2, (x.Handle lib evt w1).1 = (x.Handle lib evt w2).1) :
    (handleEach lib (pre ++ x :: post) evt w).1[pre.length]? = some (x.Handle lib evt w).1 := by
  rw [handleEach_getElem? lib (pre ++ x :: post) evt w pre.length x
    (by rw [List.getElem?_append_right (le_refl _)]; simp)]
  rw [h _ w]

/-- The archive handler, step by step. -/
theorem archiveHandlerHandle_steps (lib : Lib W) (dataDir : String) (event : MotionEvent)
    (w : W) :
    archiveHandlerHandle lib dataDir event w =
      match (if IsNotExist (lib.Stat dataDir w) then lib.MkdirAll dataDir w
          else (none, w)).1 with
      | some err =>
        (some err,
          (if IsNotExist (lib.Stat dataDir w) then lib.MkdirAll dataDir w else (none, w)).2)
      | none =>
        match (lib.Create (pathForImage lib event dataDir)
            (if IsNotExist (lib.Stat dataDir w) then lib.MkdirAll dataDir w
              else (none, w)).2).1 with
        | some err =>
          (some err, (lib.Create (pathForImage lib event dataDir)
            (if IsNotExist (lib.Stat dataDir w) then lib.MkdirAll dataDir w
              else (none, w)).2).2)
        | none =>
          match (lib.Encode (pathForImage lib event dataDir) event.Frame
              (lib.Create (pathForImage lib event dataDir)
                (if IsNotExist (lib.Stat dataDir w) then lib.MkdirAll dataDir w
                  else (none, w)).2).2).1 with
          | some err =>
            (some err, lib.Close (pathForImage lib event dataDir)
              (lib.Encode (pathForImage lib event dataDir) event.Frame
                (lib.Create (pathForImage lib event dataDir)
                  (if IsNotExist (lib.Stat dataDir w) then lib.MkdirAll dataDir w
                    else (none, w)).2).2).2)
          | none =>
            (none, lib.Close (pathForImage lib event dataDir)
              (lib.Printf
                ("Motion capture saved to " ++ pathForImage lib event dataDir ++ "\n")
                (lib.Encode (pathForImage lib event dataDir) event.Frame
                  (lib.Create (pathForImage lib event dataDir)
                    (if IsNotExist (lib.Stat dataDir w) then lib.MkdirAll dataDir w
                      else (none, w)).2).2).2)) := by
  unfold archiveHandlerHandle
  simp only
  generalize (if IsNotExist (lib.Stat dataDir w) then lib.MkdirAll dataDir w
    else (none, w)) = made
  rcases made with ⟨_ | e1, w1⟩
  · simp only
    generalize lib.Create (pathForImage lib event dataDir) w1 = created
    rcases created with ⟨_ | e2, w2⟩
    · simp only
      generalize lib.Encode (pathForImage lib event dataDir) event.Frame w2 = encoded
      rcases encoded with ⟨_ | e3, w3⟩ <;> rfl
    · rfl
  · rfl

/-- The result of the archive handler and the file system it leaves depend on the file
system only. -/
theorem archiveHandlerHandle_view (lib : Lib W) {F : Type} (view : W → F)
    (hv : FileView lib view) (dataDir : String) (event : MotionEvent) (w1 w2 : W)
    (h : view w1 = view w2) :
    (archiveHandlerHandle lib dataDir event w1).1 = (archiveHandlerHandle lib dataDir event w2).1 ∧
    view (archiveHandlerHandle lib dataDir event w1).2 =
      view (archiveHandlerHandle lib dataDir event w2).2 := by
  rw [archiveHandlerHandle_steps lib dataDir event w1,
    archiveHandlerHandle_steps lib dataDir event w2]
  have hmade : (if IsNotExist (lib.Stat dataDir w1) then lib.MkdirAll dataDir w1
        else (none, w1)).1 =
      (if IsNotExist (lib.Stat dataDir w2) then lib.MkdirAll dataDir w2 else (none, w2)).1 ∧
      view (if IsNotExist (lib.Stat dataDir w1) then lib.MkdirAll dataDir w1
        else (none, w1)).2 =
      view (if IsNotExist (lib.Stat dataDir w2) then lib.MkdirAll dataDir w2
        else (none, w2)).2 := by
    rw [hv.Stat dataDir w1 w2 h]
    split
    · exact hv.MkdirAll dataDir w1 w2 h
    · exact ⟨rfl, h⟩
  generalize (if IsNotExist (lib.Stat dataDir w1) then lib.MkdirAll dataDir w1
    else (none, w1)) = m1 at hmade ⊢
  generalize (if IsNotExist (lib.Stat dataDir w2) then lib.MkdirAll dataDir w2
    else (none, w2)) = m2 at hmade ⊢
  obtain ⟨hm1, hm2⟩ := hmade
  rw [← hm1]
  cases m1.1 with
  | some err => exact ⟨rfl, hm2⟩
  | none =>
    simp only
    have hc := hv.Create (pathForImage lib event dataDir) m1.2 m2.2 hm2
    generalize lib.Create (pathForImage lib event dataDir) m1.2 = c1 at hc ⊢
    generalize lib.Create (pathForImage lib event dataDir) m2.2 = c2 at hc ⊢
    obtain ⟨hc1, hc2⟩ := hc
    rw [← hc1]
    cases c1.1 with
    | some err => exact ⟨rfl, hc2⟩
    | none =>
      simp only
      have he := hv.Encode (pathForImage lib event dataDir) event.Frame c1.2 c2.2 hc2
      generalize lib.Encode (pathForImage lib event dataDir) event.Frame c1.2 = e1 at he ⊢
      generalize lib.Encode (pathForImage lib event dataDir) event.Frame c2.2 = e2 at he ⊢
      obtain ⟨he1, he2⟩ := he
      rw [← he1]
      cases e1.1 with
      | some err => exact ⟨rfl, hv.Close _ _ _ he2⟩
      | none =>
        refine ⟨rfl, hv.Close _ _ _ ?_⟩
        rw [hv.Printf, hv.Printf]
        exact he2

theorem afterHandler_archive_view (lib : Lib W) {F : Type} (view : W → F)
    (hv : FileView lib view) (dataDir : String) (evt : MotionEvent) (w : W) :
    view (afterHandler lib (.archiveHandler dataDir) evt w) =
      view (archiveHandlerHandle lib dataDir evt w).2 := by
  have hA : (MotionHandler.archiveHandler dataDir).Handle lib evt w =
      archiveHandlerHandle lib dataDir evt w := rfl
  simp only [afterHandler, hA]
  cases (archiveHandlerHandle lib dataDir evt w).1 with
  | none => rfl
  | some err => exact hv.Printf _ _

theorem mailSender_send_view (lib : Lib W) {F : Type} (view : W → F) (hv : FileView lib view)
    (sender : mailSender W) (hs : sender.keepsView view) (msg : mailMessage) (w : W) :
    view (sender.send lib msg w).2 = view w := by
  cases sender with
  | defaultMailSender host port user password =>
    simp only [mailSender.send]
    cases lib.AttachFile msg.attachment w with
    | some err => rfl
    | none => exact hv.Send _ _ _ _ _ _
  | other send => exact hs msg w

/-- The console handler, the mail handler and every other handler that keeps the view
leave the file system as it is, whatever they return. -/
theorem afterHandler_keepsView (lib : Lib W) {F : Type} (view : W → F) (hv : FileView lib view)
    (x : MotionHandler W) (hx : x.keepsView view) (evt : MotionEvent) (w : W) :
    view (afterHandler lib x evt w) = view w := by
  have hcall : view (x.Handle lib evt w).2 = view w := by
    cases x with
    | consoleHandler => exact hv.Printf _ _
    | archiveHandler dataDir => exact absurd hx (by simp [MotionHandler.keepsView])
    | mailHandler sender from_ to_ dataDir =>
      simp only [MotionHandler.Handle, mailHandlerHandle]
      split
      · rfl
      · simp only
        rw [hv.Printf]
        exact mailSender_send_view lib view hv sender hx _ w
    | other handle => exact hx evt w
  simp only [afterHandler]
  cases (x.Handle lib evt w).1 with
  | none => exact hcall
  | some err => rw [hv.Printf]; exact hcall

theorem handleEach_keepsView (lib : Lib W) {F : Type} (view : W → F) (hv : FileView lib view)
    (hs : List (MotionHandler W)) (hk : ∀ x ∈ hs, x.keepsView view) (evt : MotionEvent)
    (w : W) : view (handleEach lib hs evt w).2 = view w := by
  induction hs generalizing w with
  | nil => rfl
  | cons x hs ih =>
    rw [handleEach_cons]
    simp only
    rw [ih (fun y hy => hk y (by simp [hy])),
      afterHandler_keepsView lib view hv x (hk x (by simp)) evt w]

/-- Among handlers that keep the view, the archive handler returns, wherever it is
registered, what it returns when called first, and the file system is left as the
archive handler alone leaves it. -/
theorem handleEach_archive_among (lib : Lib W) {F : Type} (view : W → F)
    (hv : FileView lib view) (pre post : List (MotionHandler W)) (dataDir : String)
    (evt : MotionEvent) (w : W)
    (hpre : ∀ x ∈ pre, x.keepsView view) (hpost : ∀ x ∈ post, x.keepsView view) :
    (handleEach lib (pre ++ .archiveHandler dataDir :: post) evt w).1[pre.length]? =
      some (archiveHandlerHandle lib dataDir evt w).1 ∧
    view (handleEach lib (pre ++ .archiveHandler dataDir :: post) evt w).2 =
      view (archiveHandlerHandle lib dataDir evt w).2 := by
  have hw := handleEach_keepsView lib view hv pre hpre evt w
  have ha := archiveHandlerHandle_view lib view hv dataDir evt _ _ hw
  refine ⟨?_, ?_⟩
  · rw [handleEach_getElem? lib (pre ++ .archiveHandler dataDir :: post) evt w pre.length
      (.archiveHandler dataDir) (by rw [List.getElem?_append_right (le_refl _)]; simp)]
    rw [List.take_left' rfl]
    exact congrArg some ha.1
  · rw [handleEach_append, handleEach_cons]
    simp only
    rw [handleEach_keepsView lib view hv post hpost,
      afterHandler_archive_view lib view hv]
    exact ha.2

theorem memLib_fileView : FileView memLib memView := by
  have hfile : ∀ (w1 w2 : MemWorld) (path : String), memView w1 = memView w2 →
      w1.file path = w2.file path := by
    intro w1 w2 path h
    simp only [memView, Prod.mk.injEq] at h
    simp only [MemWorld.file, h.2]
  have hwrite : ∀ (w1 w2 : MemWorld) (path : String) (img : Image), memView w1 = memView w2 →
      memView (w1.write path img) = memView (w2.write path img) := by
    intro w1 w2 path img h
    simp only [memView, Prod.mk.injEq] at h
    simp only [memView, MemWorld.write, h.1, h.2]
  refine ⟨?_, ?_, ?_, ?_, ?_, ?_, ?_⟩
  · intro path w1 w2 h
    have hd : w1.dirs = w2.dirs := by
      simp only [memView, Prod.mk.injEq] at h
      exact h.1
    simp only [memLib, hfile w1 w2 path h, hd]
  · intro path w1 w2 h
    have hd : w1.dirs = w2.dirs := by
      simp only [memView, Prod.mk.injEq] at h
      exact h.1
    have hf : w1.files = w2.files := by
      simp only [memView, Prod.mk.injEq] at h
      exact h.2
    simp only [memLib, hfile w1 w2 path h]
    split
    · exact ⟨rfl, h⟩
    · exact ⟨rfl, by simp only [memView, hd, hf]⟩
  · intro path w1 w2 h
    have hd : w1.dirs = w2.dirs := by
      simp only [memView, Prod.mk.injEq] at h
      exact h.1
    simp only [memLib, hd]
    split
    · exact ⟨rfl, h⟩
    · exact ⟨rfl, hwrite w1 w2 path [] h⟩
  · intro path img w1 w2 h
    exact ⟨rfl, hwrite w1 w2 path img h⟩
  · intro path w1 w2 h
    exact h
  · intro line w
    rfl
  · intro addr user password host msg w
    rfl

theorem zip_map_self {α β : Type} (f : α → β) (l : List α) :
    l.zip (l.map f) = l.map (fun x => (x, f x)) := by
  induction l with
  | nil => rfl
  | cons x l ih => simp [ih]

/-- Counterexample to C3 as stated: with the handlers console, archive and mail on a data
directory that cannot be written to, the archive handler fails and the mail handler
registered after it fails too, the image file not existing; on a writable data directory
all three succeed. -/
theorem C3_failed_archive_fails_mail :
    (handleEach deniedLib consoleArchiveMail testMotionEvent dataDirWorld).1 =
      [none, some (.msg "open data/0001-01-01-00-00-00.png: permission denied"),
        some (.notExist "data/0001-01-01-00-00-00.png")] ∧
    (handleEach memLib consoleArchiveMail testMotionEvent dataDirWorld).1 =
      [none, none, none] := by
  decide

/-- Claim C3, amended.  The goroutine of `Run` goes on after a failure: it calls `Handle`
of every registered handler exactly once with the admitted event, in registration order,
whatever errors the other handlers return, and the error `Run` returns is the detector's,
never a handler's.  The handlers before a failing handler `B` get the results they get
without it; a handler after `B` whose result does not depend on the state of the world,
as the console handler, gets the result it gets without `B`.  A handler whose result
depends on what an earlier handler did may fail with it: when the image file does not
exist after the archive handler has run, the mail handler registered after it returns the
not-exist error. -/
theorem C3_dispatch_continues_after_failure (lib : Lib W) (hs pre post : List (MotionHandler W))
    (evt : MotionEvent) (w : W) (r : Runner W) (d : MotionDetector) (A B C : MotionHandler W)
    (sender : mailSender W) (from_ : String) (to_ : List String) (dataDir : String) :
    (handleEach lib hs evt w).1.length = hs.length ∧
    (∀ (i : Nat) (h : MotionHandler W), hs[i]? = some h →
      (handleEach lib hs evt w).1[i]? =
        some (h.Handle lib evt (handleEach lib (hs.take i) evt w).2).1) ∧
    (handleEach lib (pre ++ B :: post) evt w).1.take pre.length = (handleEach lib pre evt w).1 ∧
    ((∀ w1 w2, (C.Handle lib evt w1).1 = (C.Handle lib evt w2).1) →
      (handleEach lib ((pre ++ B :: post) ++ C :: []) evt w).1[(pre ++ B :: post).length]? =
        some (C.Handle lib evt w).1) ∧
    ((∀ w1 w2, (A.Handle lib evt w1).1 = (A.Handle lib evt w2).1) →
      (∀ w1 w2, (C.Handle lib evt w1).1 = (C.Handle lib evt w2).1) →
      (handleEach lib [A, B, C] evt w).1 =
        [(A.Handle lib evt w).1, (B.Handle lib evt (afterHandler lib A evt w)).1,
          (C.Handle lib evt w).1]) ∧
    (handleEach lib (pre ++ .consoleHandler :: post) evt w).1[pre.length]? = some none ∧
    (∀ (specs : List (String × Option Error)) (m : MemWorld),
      (handleEach memLib (specs.map recordingHandler) evt m).1 = specs.map (·.2) ∧
      (handleEach memLib (specs.map recordingHandler) evt m).2.calls =
        m.calls ++ specs.map (fun s => (s.1, evt))) ∧
    (Run r d).err = (d.DetectMotion r.config.ShowVideo r.config.MinArea).2 ∧
    (∀ e, (Run r d).spawned = some e → (Run r d).err = none) ∧
    (d.DetectMotion r.config.ShowVideo r.config.MinArea = (some evt, none) →
      r.threshold < evt.Timestamp →
      (runAndDispatch lib r d w).1 = (handleEach lib r.handlers evt w).1 ∧
      (runAndDispatch lib r d w).1.length = r.handlers.length ∧
      (Run r d).err = none) ∧
    (IsNotExist (lib.Stat (pathForImage lib evt dataDir)
        (afterHandler lib (.archiveHandler dataDir) evt w)) = true →
      (handleEach lib [.archiveHandler dataDir, .mailHandler sender from_ to_ dataDir]
          evt w).1 =
        [(archiveHandlerHandle lib dataDir evt w).1,
          lib.Stat (pathForImage lib evt dataDir)
            (afterHandler lib (.archiveHandler dataDir) evt w)] ∧
      lib.Stat (pathForImage lib evt dataDir)
        (afterHandler lib (.archiveHandler dataDir) evt w) ≠ none) := by
  refine ⟨handleEach_length lib hs evt w, handleEach_getElem? lib hs evt w,
    handleEach_take lib pre (B :: post) evt w,
    handleEach_state_free_at lib (pre ++ B :: post) [] C evt w, ?_,
    handleEach_state_free_at lib pre post .consoleHandler evt w (fun _ _ => rfl),
    fun specs m => handleEach_recording specs evt m, Run_err r d, Run_spawned_err r d, ?_, ?_⟩
  · intro _ hC
    simp only [handleEach_cons, handleEach_nil]
    rw [hC _ w]
  · intro hd hlt
    rw [runAndDispatch_after lib r d evt w hd hlt, Run_event_after r d evt hd hlt]
    exact ⟨rfl, handleEach_length lib r.handlers evt w, rfl⟩
  · intro hmiss
    refine ⟨?_, ?_⟩
    · have hM : (MotionHandler.mailHandler sender from_ to_ dataDir).Handle lib evt
          (afterHandler lib (.archiveHandler dataDir) evt w) =
          (lib.Stat (pathForImage lib evt dataDir)
            (afterHandler lib (.archiveHandler dataDir) evt w),
            afterHandler lib (.archiveHandler dataDir) evt w) :=
        mailHandlerHandle_missing lib sender from_ to_ dataDir evt _ hmiss
      simp only [handleEach_cons, handleEach_nil, hM]
      rfl
    · intro hnone
      rw [hnone] at hmiss
      simp [IsNotExist] at hmiss

/-- Witness of C3 (amended): the archive handler and the mail handler on a data directory
that cannot be written to; the mail handler returns the error of `os.Stat`. -/
theorem C3_dispatch_continues_after_failure_witness :
    (handleEach deniedLib [sampleArchiveHandler, sampleMailHandler] testMotionEvent
        dataDirWorld).1 =
      [(archiveHandlerHandle deniedLib "data" testMotionEvent dataDirWorld).1,
        deniedLib.Stat (pathForImage deniedLib testMotionEvent "data")
          (afterHandler deniedLib (.archiveHandler "data") testMotionEvent dataDirWorld)] :=
  ((C3_dispatch_continues_after_failure deniedLib consoleArchiveMail [] []
    testMotionEvent dataDirWorld recordingRunner (mockMotionDetector testMotionEvent)
    .consoleHandler sampleArchiveHandler sampleMailHandler
    (newMailSender (mockConfiguration (30 * second) [] "data"))
    "user@example.net" ["someone@example.net"] "data").2.2.2.2.2.2.2.2.2.2 (by decide)).1

/-- Counterexample to C9 as stated: on the empty file system, the handlers archive and
mail both succeed and one mail is sent, while the handlers mail and archive have the mail
handler fail, the image file not existing yet, and no mail is sent. -/
theorem C9_archive_mail_order_matters :
    (handleEach memLib [sampleArchiveHandler, sampleMailHandler] testMotionEvent
        MemWorld.empty).1 = [none, none] ∧
    (handleEach memLib [sampleMailHandler, sampleArchiveHandler] testMotionEvent
        MemWorld.empty).1 = [some (.notExist "data/0001-01-01-00-00-00.png"), none] ∧
    (handleEach memLib [sampleArchiveHandler, sampleMailHandler] testMotionEvent
        MemWorld.empty).2.sent.length = 1 ∧
    (handleEach memLib [sampleMailHandler, sampleArchiveHandler] testMotionEvent
        MemWorld.empty).2.sent.length = 0 := by
  decide

/-- Claim C9, amended.  Dispatch runs the handlers one after the other in registration
order, each on the state the earlier ones left, and every ordering of the same handlers
calls each of them exactly once.  The order does not change the result of a handler whose
result does not depend on that state, as the console handler, which always succeeds.
Among handlers that leave the file system alone (console, mail), the archive handler
returns the same result wherever it is registered and the same files are left: so the
handlers archive, mail and the handlers mail, archive give the archive handler the same
result and leave the same files.  The order does change the mail handler's result and
the mails sent: registered before the archive handler, the mail handler returns the
not-exist error of `os.Stat` and sends nothing when the image file does not exist yet;
registered after it, it runs on the file system the archive handler left, and in the
in-memory file system it then succeeds and sends the mail with the frame attached. -/
theorem C9_dispatch_in_registration_order (lib : Lib W) {F : Type} (view : W → F)
    (hs hs2 pre post : List (MotionHandler W)) (evt : MotionEvent) (w : W)
    (sender : mailSender W) (from_ : String) (to_ : List String) (dataDir : String)
    (config : Configuration) (m : MemWorld) (specs specs2 : List (String × Option Error)) :
    (hs.Perm hs2 →
      (handleEach lib hs evt w).1.length = hs.length ∧
      (handleEach lib hs2 evt w).1.length = hs.length ∧
      (∀ (i : Nat) (h : MotionHandler W), hs2[i]? = some h →
        (handleEach lib hs2 evt w).1[i]? =
          some (h.Handle lib evt (handleEach lib (hs2.take i) evt w).2).1)) ∧
    (specs.Perm specs2 →
      (handleEach memLib (specs2.map recordingHandler) evt m).2.calls =
        m.calls ++ specs2.map (fun s => (s.1, evt)) ∧
      (specs2.map (fun s => (s.1, evt))).Perm (specs.map (fun s => (s.1, evt))) ∧
      ((handleEach memLib (specs2.map recordingHandler) evt m).2.calls).Perm
        (handleEach memLib (specs.map recordingHandler) evt m).2.calls ∧
      ((handleEach memLib (specs2.map recordingHandler) evt m).1).Perm
        (handleEach memLib (specs.map recordingHandler) evt m).1) ∧
    ((∀ x ∈ hs, ∀ w1 w2, (x.Handle lib evt w1).1 = (x.Handle lib evt w2).1) →
      hs.Perm hs2 →
      (handleEach lib hs evt w).1 = hs.map (fun x => (x.Handle lib evt w).1) ∧
      (handleEach lib hs2 evt w).1 = hs2.map (fun x => (x.Handle lib evt w).1) ∧
      (hs2.zip (handleEach lib hs2 evt w).1).Perm (hs.zip (handleEach lib hs evt w).1)) ∧
    (∀ w1, (MotionHandler.consoleHandler.Handle lib evt w1).1 = none) ∧
    (handleEach lib (pre ++ .consoleHandler :: post) evt w).1[pre.length]? = some none ∧
    (FileView lib view →
      (∀ x ∈ pre, x.keepsView view) → (∀ x ∈ post, x.keepsView view) →
      (handleEach lib (pre ++ .archiveHandler dataDir :: post) evt w).1[pre.length]? =
        some (archiveHandlerHandle lib dataDir evt w).1 ∧
      view (handleEach lib (pre ++ .archiveHandler dataDir :: post) evt w).2 =
        view (archiveHandlerHandle lib dataDir evt w).2) ∧
    (FileView lib view → sender.keepsView view →
      (handleEach lib [.archiveHandler dataDir, .mailHandler sender from_ to_ dataDir]
          evt w).1[0]? = some (archiveHandlerHandle lib dataDir evt w).1 ∧
      (handleEach lib [.mailHandler sender from_ to_ dataDir, .archiveHandler dataDir]
          evt w).1[1]? = some (archiveHandlerHandle lib dataDir evt w).1 ∧
      view (handleEach lib [.archiveHandler dataDir, .mailHandler sender from_ to_ dataDir]
          evt w).2 =
        view (handleEach lib [.mailHandler sender from_ to_ dataDir, .archiveHandler dataDir]
          evt w).2) ∧
    (IsNotExist (lib.Stat (pathForImage lib evt dataDir) w) = true →
      (MotionHandler.mailHandler sender from_ to_ dataDir).Handle lib evt w =
        (lib.Stat (pathForImage lib evt dataDir) w, w) ∧
      lib.Stat (pathForImage lib evt dataDir) w ≠ none ∧
      (handleEach lib [.mailHandler sender from_ to_ dataDir, .archiveHandler dataDir]
          evt w).1 =
        [lib.Stat (pathForImage lib evt dataDir) w,
          (archiveHandlerHandle lib dataDir evt
            (afterHandler lib (.mailHandler sender from_ to_ dataDir) evt w)).1]) ∧
    (handleEach lib [.archiveHandler dataDir, .mailHandler sender from_ to_ dataDir] evt w).1 =
      [(archiveHandlerHandle lib dataDir evt w).1,
        (mailHandlerHandle lib sender from_ to_ dataDir evt
          (afterHandler lib (.archiveHandler dataDir) evt w)).1] ∧
    ((archiveHandlerHandle memLib dataDir evt m).1 = none →
      (handleEach memLib
          [.archiveHandler dataDir, .mailHandler (newMailSender config) from_ to_ dataDir]
          evt m).1 = [none, none] ∧
      (handleEach memLib
          [.archiveHandler dataDir, .mailHandler (newMailSender config) from_ to_ dataDir]
          evt m).2.sent =
        m.sent ++ [(config.MailConfig.ServerHost ++ ":" ++ toString config.MailConfig.ServerPort,
          mailHandlerMessage memLib from_ to_ dataDir evt, evt.Frame)]) := by
  refine ⟨fun hp => ⟨handleEach_length lib hs evt w, ?_, handleEach_getElem? lib hs2 evt w⟩,
    fun hp => ?_, fun hfree hp => ?_, fun w1 => rfl,
    handleEach_state_free_at lib pre post .consoleHandler evt w (fun _ _ => rfl),
    fun hv hpre hpost => handleEach_archive_among lib view hv pre post dataDir evt w hpre hpost,
    fun hv hsend => ?_, fun hmiss => ⟨?_, ?_, ?_⟩, rfl,
    memLib_archive_then_mail dataDir evt m config from_ to_⟩
  · rw [handleEach_length, hp.length_eq]
  · obtain ⟨h1, h2⟩ := handleEach_recording specs evt m
    obtain ⟨h3, h4⟩ := handleEach_recording specs2 evt m
    refine ⟨h4, (hp.map _).symm, ?_, ?_⟩
    · rw [h2, h4]
      exact ((hp.map _).symm).append_left _
    · rw [h1, h3]
      exact (hp.map _).symm
  · have hfree2 : ∀ x ∈ hs2, ∀ w1 w2, (x.Handle lib evt w1).1 = (x.Handle lib evt w2).1 :=
      fun x hx => hfree x (hp.mem_iff.mpr hx)
    have e1 := handleEach_state_free lib hs evt w hfree
    have e2 := handleEach_state_free lib hs2 evt w hfree2
    refine ⟨e1, e2, ?_⟩
    rw [e1, e2, zip_map_self, zip_map_self]
    exact (hp.map _).symm
  · have hmail : ∀ x ∈ [MotionHandler.mailHandler sender from_ to_ dataDir],
        x.keepsView view := by
      intro x hx
      rw [List.mem_singleton] at hx
      subst hx
      exact hsend
    have hnil : ∀ x ∈ ([] : List (MotionHandler W)), x.keepsView view := by
      intro x hx
      cases hx
    have h1 := handleEach_archive_among lib view hv [] [.mailHandler sender from_ to_ dataDir]
      dataDir evt w hnil hmail
    have h2 := handleEach_archive_among lib view hv [.mailHandler sender from_ to_ dataDir] []
      dataDir evt w hmail hnil
    exact ⟨h1.1, h2.1, h1.2.trans h2.2.symm⟩
  · exact mailHandlerHandle_missing lib sender from_ to_ dataDir evt w hmiss
  · intro hnone
    rw [hnone] at hmiss
    simp [IsNotExist] at hmiss
  · have hM : (MotionHandler.mailHandler sender from_ to_ dataDir).Handle lib evt w =
        (lib.Stat (pathForImage lib evt dataDir) w, w) :=
      mailHandlerHandle_missing lib sender from_ to_ dataDir evt w hmiss
    simp only [handleEach_cons, handleEach_nil, hM]
    rfl

/-- Witness of C9 (amended): on the empty file system the handlers mail, archive and
the handlers archive, mail leave the same directories and files, and the mail handler
registered first returns the not-exist error for the image path. -/
theorem C9_dispatch_in_registration_order_witness :
    memView (handleEach memLib [sampleArchiveHandler, sampleMailHandler] testMotionEvent
        MemWorld.empty).2 =
      memView (handleEach memLib [sampleMailHandler, sampleArchiveHandler] testMotionEvent
        MemWorld.empty).2 ∧
    (handleEach memLib [sampleMailHandler, sampleArchiveHandler] testMotionEvent
        MemWorld.empty).1 =
      [memLib.Stat (pathForImage memLib testMotionEvent "data") MemWorld.empty,
        (archiveHandlerHandle memLib "data" testMotionEvent
          (afterHandler memLib sampleMailHandler testMotionEvent MemWorld.empty)).1] :=
  ⟨((C9_dispatch_in_registration_order memLib memView
      [sampleMailHandler, sampleArchiveHandler] [sampleArchiveHandler, sampleMailHandler] [] []
      testMotionEvent MemWorld.empty (newMailSender (mockConfiguration (30 * second) [] "data"))
      "user@example.net" ["someone@example.net"] "data"
      (mockConfiguration (30 * second) [] "data") MemWorld.empty [] []).2.2.2.2.2.2.1
      memLib_fileView trivial).2.2,
    ((C9_dispatch_in_registration_order memLib memView
      [sampleMailHandler, sampleArchiveHandler] [sampleArchiveHandler, sampleMailHandler] [] []
      testMotionEvent MemWorld.empty (newMailSender (mockConfiguration (30 * second) [] "data"))
      "user@example.net" ["someone@example.net"] "data"
      (mockConfiguration (30 * second) [] "data") MemWorld.empty [] []).2.2.2.2.2.2.2.1
      (by decide)).2.2⟩

/-! ## Handler names -/

/-- Claim C10.  For every configuration `newMotionHandler` returns an error and no handler
for the name reporter, which the tests expect to be supported; the name it supports in its
place is console.  It returns a handler and no error for archive and for mail, and an
error and no handler for the name unsupported. -/
theorem C10_newMotionHandler_reporter_unknown (config : Configuration) :
    newMotionHandler (W := W) "reporter" config =
      (none, some (.msg "unknown handler: reporter")) ∧
    newMotionHandler (W := W) "console" config = (some .consoleHandler, none) ∧
    newMotionHandler (W := W) "archive" config =
      (some (.archiveHandler config.DataDir), none) ∧
    newMotionHandler (W := W) "mail" config =
      (some (.mailHandler (newMailSender config) config.MailConfig.From
        [config.MailConfig.To] config.DataDir), none) ∧
    newMotionHandler (W := W) "unsupported" config =
      (none, some (.msg "unknown handler: unsupported")) := by
  refine ⟨?_, ?_, ?_, ?_, ?_⟩ <;> simp [newMotionHandler]

/-! ## Handlers that do not return -/

theorem handleEachStarted_all_return (lib : Lib W) (hs : List (MotionHandler W))
    (evt : MotionEvent) (w : W) :
    handleEachStarted lib (hs.map some) evt w =
      (hs.length, (handleEach lib hs evt w).1, (handleEach lib hs evt w).2) := by
  induction hs generalizing w with
  | nil => rfl
  | cons h hs ih =>
    rw [List.map_cons, handleEach_cons]
    simp only [handleEachStarted, ih, List.length_cons]

theorem handleEachStarted_hang (lib : Lib W) (pre : List (MotionHandler W))
    (post : List (Option (MotionHandler W))) (evt : MotionEvent) (w : W) :
    handleEachStarted lib (pre.map some ++ none :: post) evt w =
      (pre.length + 1, (handleEach lib pre evt w).1, (handleEach lib pre evt w).2) := by
  induction pre generalizing w with
  | nil => rfl
  | cons h pre ih =>
    rw [List.map_cons, List.cons_append, handleEach_cons]
    simp only [handleEachStarted, ih, List.length_cons]

theorem Run_ignores_handlers (r : Runner W) (d : MotionDetector)
    (hs : List (MotionHandler W)) :
    (Run { r with handlers := hs } d).err = (Run r d).err ∧
    (Run { r with handlers := hs } d).spawned = (Run r d).spawned ∧
    (Run { r with handlers := hs } d).runner.threshold = (Run r d).runner.threshold ∧
    (Run { r with handlers := hs } d).runner.eventCount = (Run r d).runner.eventCount := by
  unfold Run
  simp only
  split
  · exact ⟨rfl, rfl, rfl, rfl⟩
  · exact ⟨rfl, rfl, rfl, rfl⟩
  · split <;> exact ⟨rfl, rfl, rfl, rfl⟩

/-- Counterexample to C11 as stated: when the first registered handler hangs, the
recording handler `C` registered after it is never called; when the hanging handler stands
between `A` and `C`, only `A` is called and returns. -/
theorem C11_hung_handler_blocks_later_handlers :
    handleEachStarted memLib hungThenC testMotionEvent MemWorld.empty =
      (1, [], MemWorld.empty) ∧
    (handleEachStarted memLib hungBetweenAC testMotionEvent MemWorld.empty).1 = 2 ∧
    (handleEachStarted memLib hungBetweenAC testMotionEvent MemWorld.empty).2.2.calls =
      [("A", testMotionEvent)] := by
  decide

/-- Claim C11, amended.  `Run` hands an admitted event to one goroutine and calls no
handler itself: the error it returns, the event it spawns the dispatch for, the threshold
and `eventCount` do not depend on the registered handlers.  Inside the goroutine the
handlers are called one after the other in registration order, not concurrently: when every
call returns, all handlers are called; when the call of a handler never returns, the
handlers registered before it have been called and have returned, and no handler registered
after it is called. -/
theorem C11_dispatch_sequential_in_one_goroutine (lib : Lib W) (r : Runner W)
    (d : MotionDetector) (hs pre : List (MotionHandler W))
    (post : List (Option (MotionHandler W))) (evt : MotionEvent) (w : W) :
    ((Run { r with handlers := hs } d).err = (Run r d).err ∧
      (Run { r with handlers := hs } d).spawned = (Run r d).spawned ∧
      (Run { r with handlers := hs } d).runner.threshold = (Run r d).runner.threshold ∧
      (Run { r with handlers := hs } d).runner.eventCount = (Run r d).runner.eventCount) ∧
    handleEachStarted lib (hs.map some) evt w =
      (hs.length, (handleEach lib hs evt w).1, (handleEach lib hs evt w).2) ∧
    handleEachStarted lib (pre.map some ++ none :: post) evt w =
      (pre.length + 1, (handleEach lib pre evt w).1, (handleEach lib pre evt w).2) ∧
    (handleEachStarted lib (pre.map some ++ none :: post) evt w).1 <
      (pre.map some ++ none :: post).length + 1 ∧
    (post ≠ [] →
      (handleEachStarted lib (pre.map some ++ none :: post) evt w).1 <
        (pre.map some ++ none :: post).length) :=
  ⟨Run_ignores_handlers r d hs, handleEachStarted_all_return lib hs evt w,
    handleEachStarted_hang lib pre post evt w,
    by
      rw [handleEachStarted_hang]
      simp only [List.length_append, List.length_map, List.length_cons]
      omega,
    fun hpost => by
      rw [handleEachStarted_hang]
      have : 0 < post.length := List.length_pos.mpr hpost
      simp only [List.length_append, List.length_map, List.length_cons]
      omega⟩

/-- Witness of C11 (amended): a hanging handler between the recording handlers `A` and
`C`; two of the three handlers are called. -/
theorem C11_dispatch_sequential_in_one_goroutine_witness :
    (handleEachStarted memLib
      ([recordingHandler ("A", none)].map some ++ none :: [some (recordingHandler ("C", none))])
      testMotionEvent MemWorld.empty).1 < 3 :=
  (C11_dispatch_sequential_in_one_goroutine memLib sampleRunner
    (mockMotionDetector testMotionEvent) [] [recordingHandler ("A", none)]
    [some (recordingHandler ("C", none))] testMotionEvent MemWorld.empty).2.2.2.2 (by simp)

end Argus
